import Mathlib

/-!
Verification of the LCOV summary parser (`go-lcov-summary`).

The repository contains two implementations of `Parser.Parse` in package
`lcov`:

* the *extended* parser, which retains per-file `FileRecord`s in the
  `Summary` (modelled below as `Lcov.Parse`), and
* the *counters-only* parser, which keeps only running counters
  (modelled below as `Lcov.ParseC`).

Both read lines from a `bufio.Scanner`; the input stream is modelled as the
list of lines the scanner delivers, together with an optional read error
(the value of `scanner.Err()` after scanning stops).  Go `int` is modelled
as `Int` (64-bit overflow of the running sums is not modelled; `strconv.Atoi`'s
64-bit range check *is* modelled).  Go `float64` coverage rates are modelled
as `ℚ`.
-/

namespace Lcov

/-! ## Go string/strconv primitives used by the parser -/

/-- ASCII whitespace recognised by `strings.TrimSpace` (fast path):
space, tab, newline, vertical tab, form feed, carriage return. -/
def isSpaceChar (c : Char) : Bool :=
  c = ' ' || c = '\t' || c = '\n' || c = '\x0b' || c = '\x0c' || c = '\r'

/-- Model of `strings.TrimSpace` (ASCII whitespace). -/
def trimSpace (s : String) : String :=
  ⟨((s.data.dropWhile isSpaceChar).reverse.dropWhile isSpaceChar).reverse⟩

/-- Split a character list on every occurrence of `sep`
(`strings.Split` with a one-character separator). -/
def splitOnChar (sep : Char) : List Char → List (List Char)
  | [] => [[]]
  | c :: cs =>
    let r := splitOnChar sep cs
    if c = sep then [] :: r
    else
      match r with
      | [] => [[c]]
      | h :: t => (c :: h) :: t

/-- Model of `strings.Split(s, sep)` for a one-character separator. -/
def goSplit (sep : Char) (s : String) : List String :=
  (splitOnChar sep s.data).map fun l => ⟨l⟩

/-- Break a character list at the first occurrence of `sep`, if any. -/
def breakAtFirst (sep : Char) : List Char → Option (List Char × List Char)
  | [] => none
  | c :: cs =>
    if c = sep then some ([], cs)
    else (breakAtFirst sep cs).map fun p => (c :: p.1, p.2)

/-- Model of `strings.SplitN(s, sep, 2)` for a one-character separator:
one part when `sep` does not occur, otherwise the text before the first
`sep` and everything after it. -/
def goSplitN2 (sep : Char) (s : String) : List String :=
  match breakAtFirst sep s.data with
  | none => [s]
  | some (a, b) => [⟨a⟩, ⟨b⟩]

/-- Largest value of Go's 64-bit `int`. -/
def int64Max : Nat := 9223372036854775807

/-- Accumulate a run of ASCII digits, failing on any non-digit. -/
def digitsAcc : List Char → Nat → Option Nat
  | [], acc => some acc
  | c :: cs, acc =>
    if c.isDigit then digitsAcc cs (acc * 10 + (c.toNat - 48)) else none

/-- Value of a non-empty all-digit character list. -/
def digitsVal (cs : List Char) : Option Nat :=
  match cs with
  | [] => none
  | _ => digitsAcc cs 0

/-- Model of `strconv.Atoi`: optional sign, one or more ASCII digits,
64-bit range check; `none` models a non-nil error. -/
def Atoi (s : String) : Option Int :=
  match s.data with
  | '+' :: rest => (digitsVal rest).bind fun n =>
      if n ≤ int64Max then some (n : Int) else none
  | '-' :: rest => (digitsVal rest).bind fun n =>
      if n ≤ int64Max + 1 then some (-(n : Int)) else none
  | cs => (digitsVal cs).bind fun n =>
      if n ≤ int64Max then some (n : Int) else none

/-! ## Record types and the tokenizer (identical in both parser files) -/

def RecordTestName : String := "TN"
def RecordSourceFile : String := "SF"
def RecordLineData : String := "DA"
def RecordLinesFound : String := "LF"
def RecordLinesHit : String := "LH"
def RecordEndOfRecord : String := "end_of_record"
def RecordFunctionName : String := "FN"
def RecordFunctionData : String := "FNDA"
def RecordBranchData : String := "BRDA"
def RecordBranchFound : String := "BRF"
def RecordBranchHit : String := "BRH"

/-- A parsed LCOV record: a kind tag (`Type` in Go, `rtype` here) and the
raw value text. -/
structure Record where
  rtype : String
  value : String
deriving Repr, DecidableEq

/-- Model of `Parser.parseRecord`: the literal `end_of_record` line, or a
split at the first colon; a line with no colon is a format error. -/
def parseRecord (line : String) : Except String Record :=
  if line = "end_of_record" then .ok ⟨RecordEndOfRecord, ""⟩
  else
    match goSplitN2 ':' line with
    | [t, v] => .ok ⟨t, v⟩
    | _ => .error ("invalid record format: " ++ line)

/-! ## Data model of the extended parser -/

structure LineData where
  LineNumber : Int
  ExecutionCount : Int
deriving Repr, DecidableEq

structure FunctionData where
  LineNumber : Int
  Name : String
deriving Repr, DecidableEq

structure BranchData where
  LineNumber : Int
  BlockNumber : Int
  BranchNumber : Int
  ExecutionCount : Int
deriving Repr, DecidableEq

/-- Per-file accumulation block (`FileRecord` in Go); defaults are Go zero
values. -/
structure FileRecord where
  TestName : String := ""
  SourceFile : String := ""
  Lines : List LineData := []
  LinesFound : Int := 0
  LinesHit : Int := 0
  Functions : List FunctionData := []
  FunctionsHit : Int := 0
  Branches : List BranchData := []
  BranchesFound : Int := 0
  BranchesHit : Int := 0
deriving Repr, DecidableEq

/-- Whole-report summary of the extended parser; rates are Go `float64`,
modelled as `ℚ`. -/
structure Summary where
  TotalFiles : Int := 0
  TotalLines : Int := 0
  CoveredLines : Int := 0
  LineCoverageRate : ℚ := 0
  TotalFunctions : Int := 0
  CoveredFunctions : Int := 0
  FunctionCoverageRate : ℚ := 0
  TotalBranches : Int := 0
  CoveredBranches : Int := 0
  BranchCoverageRate : ℚ := 0
  Files : List FileRecord := []
deriving Repr, DecidableEq

/-! ## Per-record-kind payload parsers of the extended parser -/

/-- Model of `Parser.parseLineData` (`DA:line,count`). -/
def parseLineData (value : String) : Except String LineData :=
  match goSplit ',' value with
  | [p0, p1] =>
    match Atoi p0 with
    | none => .error ("invalid line number: " ++ p0)
    | some ln =>
      match Atoi p1 with
      | none => .error ("invalid execution count: " ++ p1)
      | some ec => .ok ⟨ln, ec⟩
  | _ => .error ("invalid line data format: " ++ value)

/-- Model of `Parser.parseFunctionName` (`FN:line,name`, split at the first
comma only, so names may contain commas). -/
def parseFunctionName (value : String) : Except String FunctionData :=
  match goSplitN2 ',' value with
  | [p0, p1] =>
    match Atoi p0 with
    | none => .error ("invalid function line number: " ++ p0)
    | some ln => .ok ⟨ln, p1⟩
  | _ => .error ("invalid function name format: " ++ value)

/-- Model of `Parser.parseBranchData` (`BRDA:line,block,branch,count`);
the fourth field accepts the literal `-`, meaning execution count `0`. -/
def parseBranchData (value : String) : Except String BranchData :=
  match goSplit ',' value with
  | [p0, p1, p2, p3] =>
    match Atoi p0 with
    | none => .error ("invalid branch line number: " ++ p0)
    | some ln =>
      match Atoi p1 with
      | none => .error ("invalid branch block number: " ++ p1)
      | some bl =>
        match Atoi p2 with
        | none => .error ("invalid branch number: " ++ p2)
        | some br =>
          if p3 = "-" then .ok ⟨ln, bl, br, 0⟩
          else
            match Atoi p3 with
            | none => .error ("invalid branch execution count: " ++ p3)
            | some ec => .ok ⟨ln, bl, br, ec⟩
  | _ => .error ("invalid branch data format: " ++ value)

/-! ## The extended parser's state machine -/

/-- Loop state of the extended `Parser.Parse`: the summary built so far and
the currently open file block (`currentFile`, `nil` when idle). -/
abbrev PState := Summary × Option FileRecord

/-- The `end_of_record` case of the extended parser: fold the closed file
block into the summary totals. -/
def eorFold (sum : Summary) (fr : FileRecord) : Summary :=
  { sum with
      Files := sum.Files ++ [fr]
      TotalFiles := sum.TotalFiles + 1
      TotalLines := sum.TotalLines + fr.LinesFound
      CoveredLines := sum.CoveredLines + fr.LinesHit
      TotalFunctions := sum.TotalFunctions + (fr.Functions.length : Int)
      CoveredFunctions := sum.CoveredFunctions + fr.FunctionsHit
      TotalBranches := sum.TotalBranches + fr.BranchesFound
      CoveredBranches := sum.CoveredBranches + fr.BranchesHit }

/-- One step of the extended parser's `switch record.Type` statement. -/
def stepE (st : PState) (r : Record) : Except String PState :=
  if r.rtype = RecordTestName then
    match st.2 with
    | none => .ok (st.1, some { TestName := r.value })
    | some fr => .ok (st.1, some { fr with TestName := r.value })
  else if r.rtype = RecordSourceFile then
    match st.2 with
    | none => .ok (st.1, some { SourceFile := r.value })
    | some fr => .ok (st.1, some { fr with SourceFile := r.value })
  else if r.rtype = RecordLineData then
    match st.2 with
    | none => .error "line data without source file"
    | some fr =>
      match parseLineData r.value with
      | .error e => .error e
      | .ok ld => .ok (st.1, some { fr with Lines := fr.Lines ++ [ld] })
  else if r.rtype = RecordLinesFound then
    match st.2 with
    | none => .error "lines found without source file"
    | some fr =>
      match Atoi r.value with
      | none => .error ("invalid lines found value: " ++ r.value)
      | some n => .ok (st.1, some { fr with LinesFound := n })
  else if r.rtype = RecordLinesHit then
    match st.2 with
    | none => .error "lines hit without source file"
    | some fr =>
      match Atoi r.value with
      | none => .error ("invalid lines hit value: " ++ r.value)
      | some n => .ok (st.1, some { fr with LinesHit := n })
  else if r.rtype = RecordFunctionName then
    match st.2 with
    | none => .error "function name without source file"
    | some fr =>
      match parseFunctionName r.value with
      | .error e => .error e
      | .ok fd => .ok (st.1, some { fr with Functions := fr.Functions ++ [fd] })
  else if r.rtype = RecordFunctionData then
    match st.2 with
    | none => .error "function data without source file"
    | some fr =>
      match goSplit ',' r.value with
      | [p0, _p1] =>
        match Atoi p0 with
        | some n =>
          if n > 0 then
            .ok (st.1, some { fr with FunctionsHit := fr.FunctionsHit + 1 })
          else .ok st
        | none => .ok st
      | _ => .ok st
  else if r.rtype = RecordBranchData then
    match st.2 with
    | none => .error "branch data without source file"
    | some fr =>
      match parseBranchData r.value with
      | .error e => .error e
      | .ok bd => .ok (st.1, some { fr with Branches := fr.Branches ++ [bd] })
  else if r.rtype = RecordBranchFound then
    match st.2 with
    | none => .error "branch found without source file"
    | some fr =>
      match Atoi r.value with
      | none => .error ("invalid branches found value: " ++ r.value)
      | some n => .ok (st.1, some { fr with BranchesFound := n })
  else if r.rtype = RecordBranchHit then
    match st.2 with
    | none => .error "branch hit without source file"
    | some fr =>
      match Atoi r.value with
      | none => .error ("invalid branches hit value: " ++ r.value)
      | some n => .ok (st.1, some { fr with BranchesHit := n })
  else if r.rtype = RecordEndOfRecord then
    match st.2 with
    | none => .ok st
    | some fr => .ok (eorFold st.1 fr, none)
  else .ok st

/-- One iteration of the extended parser's scan loop: trim the line, skip
it when blank, tokenize it (wrapping a tokenizer error with the raw line),
then run the state machine. -/
def processLine (st : PState) (rawLine : String) : Except String PState :=
  let line := trimSpace rawLine
  if line = "" then .ok st
  else
    match parseRecord line with
    | .error e => .error ("failed to parse line '" ++ line ++ "': " ++ e)
    | .ok r => stepE st r

/-- The extended parser's scan loop over the delivered lines. -/
def runLines (st : PState) : List String → Except String PState
  | [] => .ok st
  | l :: ls =>
    match processLine st l with
    | .error e => .error e
    | .ok st2 => runLines st2 ls

/-- Finalization of the extended parser: compute the three coverage rates,
each guarded by `total > 0`. -/
def finalize (s : Summary) : Summary :=
  let s1 := if s.TotalLines > 0 then
    { s with LineCoverageRate := (s.CoveredLines : ℚ) / (s.TotalLines : ℚ) * 100 }
    else s
  let s2 := if s1.TotalFunctions > 0 then
    { s1 with FunctionCoverageRate :=
        (s1.CoveredFunctions : ℚ) / (s1.TotalFunctions : ℚ) * 100 }
    else s1
  if s2.TotalBranches > 0 then
    { s2 with BranchCoverageRate :=
        (s2.CoveredBranches : ℚ) / (s2.TotalBranches : ℚ) * 100 }
  else s2

/-- Model of the extended `Parser.Parse`.  `lines` are the lines the
scanner delivers; `readErr` is `scanner.Err()` once scanning stops.  The
result mirrors Go's `(*Summary, error)` pair: on a parse error,
`(nil, err)`; otherwise `(summary, scanner.Err())`. -/
def Parse (lines : List String) (readErr : Option String) :
    Option Summary × Option String :=
  match runLines ({}, none) lines with
  | .error e => (none, some e)
  | .ok st => (some (finalize st.1), readErr)

/-- Model of the package-level `Summarize`, which just drives `Parse`. -/
def Summarize (lines : List String) (readErr : Option String) :
    Option Summary × Option String :=
  Parse lines readErr

/-! ## The counters-only parser (the second `Parser.Parse` in the repo) -/

/-- Summary shape of the counters-only parser (no `Files` list). -/
structure SummaryC where
  TotalFiles : Int := 0
  TotalLines : Int := 0
  CoveredLines : Int := 0
  LineCoverageRate : ℚ := 0
  TotalFunctions : Int := 0
  CoveredFunctions : Int := 0
  FunctionCoverageRate : ℚ := 0
  TotalBranches : Int := 0
  CoveredBranches : Int := 0
  BranchCoverageRate : ℚ := 0
deriving Repr, DecidableEq

/-- Loop state of the counters-only parser: the summary built so far, the
per-file local counters, and the `inFile` flag. -/
structure CState where
  summary : SummaryC := {}
  currentFileLinesFound : Int := 0
  currentFileLinesHit : Int := 0
  currentFileFunctions : Int := 0
  currentFileFunctionsHit : Int := 0
  currentFileBranchesFound : Int := 0
  currentFileBranchesHit : Int := 0
  inFile : Bool := false
deriving Repr, DecidableEq

/-- Model of `Parser.isValidLineData` (`DA` payload validation). -/
def isValidLineData (value : String) : Bool :=
  match goSplit ',' value with
  | [p0, p1] => (Atoi p0).isSome && (Atoi p1).isSome
  | _ => false

/-- Model of `Parser.isValidFunctionName` (`FN` payload validation). -/
def isValidFunctionName (value : String) : Bool :=
  match goSplitN2 ',' value with
  | [p0, _p1] => (Atoi p0).isSome
  | _ => false

/-- Model of `Parser.isValidBranchData` (`BRDA` payload validation;
fourth field may be a number or the literal `-`). -/
def isValidBranchData (value : String) : Bool :=
  match goSplit ',' value with
  | [p0, p1, p2, p3] =>
    (Atoi p0).isSome && (Atoi p1).isSome && (Atoi p2).isSome &&
      (p3 = "-" || (Atoi p3).isSome)
  | _ => false

/-- The `end_of_record` case of the counters-only parser: add the current
file's counters to the totals and leave the file. -/
def eorFoldC (c : CState) : CState :=
  { c with
      summary := { c.summary with
        TotalFiles := c.summary.TotalFiles + 1
        TotalLines := c.summary.TotalLines + c.currentFileLinesFound
        CoveredLines := c.summary.CoveredLines + c.currentFileLinesHit
        TotalFunctions := c.summary.TotalFunctions + c.currentFileFunctions
        CoveredFunctions := c.summary.CoveredFunctions + c.currentFileFunctionsHit
        TotalBranches := c.summary.TotalBranches + c.currentFileBranchesFound
        CoveredBranches := c.summary.CoveredBranches + c.currentFileBranchesHit }
      inFile := false }

/-- One step of the counters-only parser's `switch record.Type` statement. -/
def stepC (c : CState) (r : Record) : Except String CState :=
  if r.rtype = RecordTestName then .ok c
  else if r.rtype = RecordSourceFile then
    .ok { c with inFile := true
                 currentFileLinesFound := 0
                 currentFileLinesHit := 0
                 currentFileFunctions := 0
                 currentFileFunctionsHit := 0
                 currentFileBranchesFound := 0
                 currentFileBranchesHit := 0 }
  else if r.rtype = RecordLineData then
    if c.inFile = false then .error "line data without source file"
    else if isValidLineData r.value then .ok c
    else .error ("invalid line data format: " ++ r.value)
  else if r.rtype = RecordLinesFound then
    if c.inFile = false then .error "lines found without source file"
    else
      match Atoi r.value with
      | none => .error ("invalid lines found value: " ++ r.value)
      | some n => .ok { c with currentFileLinesFound := n }
  else if r.rtype = RecordLinesHit then
    if c.inFile = false then .error "lines hit without source file"
    else
      match Atoi r.value with
      | none => .error ("invalid lines hit value: " ++ r.value)
      | some n => .ok { c with currentFileLinesHit := n }
  else if r.rtype = RecordFunctionName then
    if c.inFile = false then .error "function name without source file"
    else if isValidFunctionName r.value then
      .ok { c with currentFileFunctions := c.currentFileFunctions + 1 }
    else .error ("invalid function name format: " ++ r.value)
  else if r.rtype = RecordFunctionData then
    if c.inFile = false then .error "function data without source file"
    else
      match goSplit ',' r.value with
      | [p0, _p1] =>
        match Atoi p0 with
        | some n =>
          if n > 0 then
            .ok { c with currentFileFunctionsHit := c.currentFileFunctionsHit + 1 }
          else .ok c
        | none => .ok c
      | _ => .ok c
  else if r.rtype = RecordBranchData then
    if c.inFile = false then .error "branch data without source file"
    else if isValidBranchData r.value then .ok c
    else .error ("invalid branch data format: " ++ r.value)
  else if r.rtype = RecordBranchFound then
    if c.inFile = false then .error "branch found without source file"
    else
      match Atoi r.value with
      | none => .error ("invalid branches found value: " ++ r.value)
      | some n => .ok { c with currentFileBranchesFound := n }
  else if r.rtype = RecordBranchHit then
    if c.inFile = false then .error "branch hit without source file"
    else
      match Atoi r.value with
      | none => .error ("invalid branches hit value: " ++ r.value)
      | some n => .ok { c with currentFileBranchesHit := n }
  else if r.rtype = RecordEndOfRecord then
    if c.inFile then .ok (eorFoldC c)
    else .ok c
  else .ok c

/-- One iteration of the counters-only parser's scan loop. -/
def processLineC (c : CState) (rawLine : String) : Except String CState :=
  let line := trimSpace rawLine
  if line = "" then .ok c
  else
    match parseRecord line with
    | .error e => .error ("failed to parse line '" ++ line ++ "': " ++ e)
    | .ok r => stepC c r

/-- The counters-only parser's scan loop over the delivered lines. -/
def runLinesC (c : CState) : List String → Except String CState
  | [] => .ok c
  | l :: ls =>
    match processLineC c l with
    | .error e => .error e
    | .ok c2 => runLinesC c2 ls

/-- Finalization of the counters-only parser (same guarded rate formulas). -/
def finalizeC (s : SummaryC) : SummaryC :=
  let s1 := if s.TotalLines > 0 then
    { s with LineCoverageRate := (s.CoveredLines : ℚ) / (s.TotalLines : ℚ) * 100 }
    else s
  let s2 := if s1.TotalFunctions > 0 then
    { s1 with FunctionCoverageRate :=
        (s1.CoveredFunctions : ℚ) / (s1.TotalFunctions : ℚ) * 100 }
    else s1
  if s2.TotalBranches > 0 then
    { s2 with BranchCoverageRate :=
        (s2.CoveredBranches : ℚ) / (s2.TotalBranches : ℚ) * 100 }
  else s2

/-- Model of the counters-only `Parser.Parse`, with the same input and
result conventions as `Parse`. -/
def ParseC (lines : List String) (readErr : Option String) :
    Option SummaryC × Option String :=
  match runLinesC {} lines with
  | .error e => (none, some e)
  | .ok c => (some (finalizeC c.summary), readErr)

/-! ## Auxiliary notions used only in theorem statements and proofs -/

/-- Is the needle a leading segment of the haystack? -/
def isPfx : List Char → List Char → Bool
  | [], _ => true
  | _ :: _, [] => false
  | c :: cs, d :: ds => c = d && isPfx cs ds

/-- Does the needle occur contiguously in the haystack? -/
def hasSubL (needle : List Char) : List Char → Bool
  | [] => needle.isEmpty
  | c :: cs => isPfx needle (c :: cs) || hasSubL needle cs

/-- Substring test on strings ("the error message mentions ..."). -/
def hasSub (hay needle : String) : Bool :=
  hasSubL needle.data hay.data

/-- Sum of an integer-valued field over a list of file records. -/
def sumBy (f : FileRecord → Int) (l : List FileRecord) : Int :=
  (l.map f).sum

/-- The condition under which an `FNDA` record increments the functions-hit
counter: the value splits on comma into exactly two parts and the first
part parses as an integer greater than zero. -/
def fndaHit (v : String) : Bool :=
  match goSplit ',' v with
  | [p0, _p1] =>
    match Atoi p0 with
    | some n => decide (n > 0)
    | none => false
  | _ => false

/-- The per-record error message for a file-scoped record arriving while no
file block is open (`none` for kinds that are legal outside a block). -/
def withoutSrcMsg (rtype : String) : Option String :=
  if rtype = RecordLineData then some "line data without source file"
  else if rtype = RecordLinesFound then some "lines found without source file"
  else if rtype = RecordLinesHit then some "lines hit without source file"
  else if rtype = RecordFunctionName then some "function name without source file"
  else if rtype = RecordFunctionData then some "function data without source file"
  else if rtype = RecordBranchData then some "branch data without source file"
  else if rtype = RecordBranchFound then some "branch found without source file"
  else if rtype = RecordBranchHit then some "branch hit without source file"
  else none

/-- Forget the extended summary's `Files` list, keeping the aggregate fields
the two parser implementations share. -/
def toCounters (s : Summary) : SummaryC :=
  { TotalFiles := s.TotalFiles
    TotalLines := s.TotalLines
    CoveredLines := s.CoveredLines
    LineCoverageRate := s.LineCoverageRate
    TotalFunctions := s.TotalFunctions
    CoveredFunctions := s.CoveredFunctions
    FunctionCoverageRate := s.FunctionCoverageRate
    TotalBranches := s.TotalBranches
    CoveredBranches := s.CoveredBranches
    BranchCoverageRate := s.BranchCoverageRate }

/-- Flag update of the open-block tracking used by `agreeLines`: `SF` opens,
`end_of_record` closes, everything else leaves the flag alone (this is
exactly how the counters-only parser drives `inFile`). -/
def updFlag (inF : Bool) (r : Record) : Bool :=
  if r.rtype = RecordSourceFile then true
  else if r.rtype = RecordEndOfRecord then false
  else inF

/-- A record placement on which the two implementations behave alike: a
test-name record only inside an open block, a source-file record only
outside one. -/
def okRecord (inF : Bool) (r : Record) : Bool :=
  (!(r.rtype = RecordTestName) || inF) && (!(r.rtype = RecordSourceFile) || !inF)

/-- Inputs on which every test-name record arrives while a block is open and
every source-file record arrives while none is (lines that fail to tokenize
abort both parsers at the same point, so nothing later matters). -/
def agreeLines (inF : Bool) : List String → Bool
  | [] => true
  | l :: ls =>
    let t := trimSpace l
    if t = "" then agreeLines inF ls
    else
      match parseRecord t with
      | .error _ => true
      | .ok r => okRecord inF r && agreeLines (updFlag inF r) ls

/-- The extended parser's open block carries the same counters as the
counters-only parser's per-file locals. -/
def RelFile (fr : FileRecord) (c : CState) : Prop :=
  fr.LinesFound = c.currentFileLinesFound ∧
  fr.LinesHit = c.currentFileLinesHit ∧
  (fr.Functions.length : Int) = c.currentFileFunctions ∧
  fr.FunctionsHit = c.currentFileFunctionsHit ∧
  fr.BranchesFound = c.currentFileBranchesFound ∧
  fr.BranchesHit = c.currentFileBranchesHit

/-- Correspondence between the two parsers' loop states: equal shared
summary fields, and either both idle or both inside blocks with equal
counters. -/
def Rel (st : PState) (c : CState) : Prop :=
  toCounters st.1 = c.summary ∧
  ((st.2 = none ∧ c.inFile = false) ∨
   (∃ fr, st.2 = some fr ∧ c.inFile = true ∧ RelFile fr c))

/-- Did an `Except` computation succeed? -/
def isOkE {α : Type} (x : Except String α) : Bool :=
  match x with
  | .ok _ => true
  | .error _ => false

instance {e a : Type} [DecidableEq e] [DecidableEq a] : DecidableEq (Except e a) :=
  fun x y =>
  match x, y with
  | .ok u, .ok v => if h : u = v then isTrue (by rw [h]) else isFalse (by simp [h])
  | .error u, .error v => if h : u = v then isTrue (by rw [h]) else isFalse (by simp [h])
  | .ok _, .error _ => isFalse (by simp)
  | .error _, .ok _ => isFalse (by simp)

/-! ## Concrete inputs and outputs used to instantiate the theorems -/

/-- Scenario A of the spec: a minimal two-file report. -/
def linesA : List String :=
  ["SF:/a.go", "DA:1,1", "DA:2,0", "LF:2", "LH:1", "end_of_record",
   "SF:/b.go", "DA:1,1", "LF:1", "LH:1", "end_of_record"]

/-- The summary the extended parser accumulates on `linesA` before the
rates are computed. -/
def preSummaryA : Summary :=
  { TotalFiles := 2, TotalLines := 3, CoveredLines := 2,
    Files := [{ SourceFile := "/a.go", Lines := [⟨1, 1⟩, ⟨2, 0⟩],
                LinesFound := 2, LinesHit := 1 },
              { SourceFile := "/b.go", Lines := [⟨1, 1⟩],
                LinesFound := 1, LinesHit := 1 }] }

/-- A one-file report used to instantiate the aggregation claim. -/
def linesOneFile : List String := ["SF:a", "LF:2", "LH:1", "end_of_record"]

/-- The summary the extended parser accumulates on `linesOneFile` before
the rates are computed. -/
def preOneFile : Summary :=
  { TotalFiles := 1, TotalLines := 2, CoveredLines := 1,
    Files := [{ SourceFile := "a", LinesFound := 2, LinesHit := 1 }] }

/-- An input that ends with a file block still open. -/
def linesOpenEnd : List String := ["SF:w", "LF:7"]

/-- A well-placed one-file report exercising lines, functions and branches,
used to instantiate the parser-agreement claim. -/
def linesRich : List String :=
  ["SF:x", "FN:1,f", "FNDA:2,f", "LF:1", "LH:1", "BRF:1", "BRH:1", "end_of_record"]

/-- The block left open at the end of `linesOpenEnd`. -/
def openBlock : FileRecord := { SourceFile := "w", LinesFound := 7 }

/-! ## Helper lemmas -/

theorem runLines_append (xs ys : List String) (st : PState) :
    runLines st (xs ++ ys) =
      match runLines st xs with
      | .error e => .error e
      | .ok st2 => runLines st2 ys := by
  induction xs generalizing st with
  | nil => simp [runLines]
  | cons l ls ih =>
    simp only [List.cons_append, runLines]
    cases processLine st l with
    | error e => rfl
    | ok st2 => exact ih st2

theorem isValidLineData_eq (v : String) :
    isValidLineData v = isOkE (parseLineData v) := by
  unfold isValidLineData parseLineData isOkE
  rcases hs : goSplit ',' v with _ | ⟨p0, _ | ⟨p1, _ | ⟨q, qs⟩⟩⟩ <;>
    simp only [hs] <;> try rfl
  cases Atoi p0 <;> cases Atoi p1 <;> rfl

theorem isValidFunctionName_eq (v : String) :
    isValidFunctionName v = isOkE (parseFunctionName v) := by
  unfold isValidFunctionName parseFunctionName isOkE
  rcases hs : goSplitN2 ',' v with _ | ⟨p0, _ | ⟨p1, _ | ⟨q, qs⟩⟩⟩ <;>
    simp only [hs] <;> try rfl
  cases Atoi p0 <;> rfl

theorem isValidBranchData_eq (v : String) :
    isValidBranchData v = isOkE (parseBranchData v) := by
  unfold isValidBranchData parseBranchData isOkE
  rcases hs : goSplit ',' v with _ | ⟨p0, _ | ⟨p1, _ | ⟨p2, _ | ⟨p3, _ | ⟨q, qs⟩⟩⟩⟩⟩ <;>
    simp only [hs] <;> try rfl
  cases Atoi p0 <;> cases Atoi p1 <;> cases Atoi p2 <;> try rfl
  · by_cases hdash : p3 = "-" <;> cases hA : Atoi p3 <;>
      simp [hdash, hA]

theorem stepE_TN_none (sum : Summary) (v : String) :
    stepE (sum, none) ⟨RecordTestName, v⟩ = .ok (sum, some { TestName := v }) := rfl

theorem stepE_TN_some (sum : Summary) (fr : FileRecord) (v : String) :
    stepE (sum, some fr) ⟨RecordTestName, v⟩ =
      .ok (sum, some { fr with TestName := v }) := rfl

theorem stepE_SF_none (sum : Summary) (v : String) :
    stepE (sum, none) ⟨RecordSourceFile, v⟩ = .ok (sum, some { SourceFile := v }) := rfl

theorem stepE_SF_some (sum : Summary) (fr : FileRecord) (v : String) :
    stepE (sum, some fr) ⟨RecordSourceFile, v⟩ =
      .ok (sum, some { fr with SourceFile := v }) := rfl

theorem stepE_DA_none (sum : Summary) (v : String) :
    stepE (sum, none) ⟨RecordLineData, v⟩ =
      .error "line data without source file" := rfl

theorem stepE_DA_some (sum : Summary) (fr : FileRecord) (v : String) :
    stepE (sum, some fr) ⟨RecordLineData, v⟩ =
      (match parseLineData v with
       | .error e => .error e
       | .ok ld => .ok (sum, some { fr with Lines := fr.Lines ++ [ld] })) := rfl

theorem stepE_LF_none (sum : Summary) (v : String) :
    stepE (sum, none) ⟨RecordLinesFound, v⟩ =
      .error "lines found without source file" := rfl

theorem stepE_LF_some (sum : Summary) (fr : FileRecord) (v : String) :
    stepE (sum, some fr) ⟨RecordLinesFound, v⟩ =
      (match Atoi v with
       | none => .error ("invalid lines found value: " ++ v)
       | some n => .ok (sum, some { fr with LinesFound := n })) := rfl

theorem stepE_LH_none (sum : Summary) (v : String) :
    stepE (sum, none) ⟨RecordLinesHit, v⟩ =
      .error "lines hit without source file" := rfl

theorem stepE_LH_some (sum : Summary) (fr : FileRecord) (v : String) :
    stepE (sum, some fr) ⟨RecordLinesHit, v⟩ =
      (match Atoi v with
       | none => .error ("invalid lines hit value: " ++ v)
       | some n => .ok (sum, some { fr with LinesHit := n })) := rfl

theorem stepE_FN_none (sum : Summary) (v : String) :
    stepE (sum, none) ⟨RecordFunctionName, v⟩ =
      .error "function name without source file" := rfl

theorem stepE_FN_some (sum : Summary) (fr : FileRecord) (v : String) :
    stepE (sum, some fr) ⟨RecordFunctionName, v⟩ =
      (match parseFunctionName v with
       | .error e => .error e
       | .ok fd => .ok (sum, some { fr with Functions := fr.Functions ++ [fd] })) := rfl

theorem stepE_FNDA_none (sum : Summary) (v : String) :
    stepE (sum, none) ⟨RecordFunctionData, v⟩ =
      .error "function data without source file" := rfl

theorem stepE_FNDA_some (sum : Summary) (fr : FileRecord) (v : String) :
    stepE (sum, some fr) ⟨RecordFunctionData, v⟩ =
      (match goSplit ',' v with
       | [p0, _p1] =>
         match Atoi p0 with
         | some n =>
           if n > 0 then
             .ok (sum, some { fr with FunctionsHit := fr.FunctionsHit + 1 })
           else .ok (sum, some fr)
         | none => .ok (sum, some fr)
       | _ => .ok (sum, some fr)) := rfl

theorem stepE_BRDA_none (sum : Summary) (v : String) :
    stepE (sum, none) ⟨RecordBranchData, v⟩ =
      .error "branch data without source file" := rfl

theorem stepE_BRDA_some (sum : Summary) (fr : FileRecord) (v : String) :
    stepE (sum, some fr) ⟨RecordBranchData, v⟩ =
      (match parseBranchData v with
       | .error e => .error e
       | .ok bd => .ok (sum, some { fr with Branches := fr.Branches ++ [bd] })) := rfl

theorem stepE_BRF_none (sum : Summary) (v : String) :
    stepE (sum, none) ⟨RecordBranchFound, v⟩ =
      .error "branch found without source file" := rfl

theorem stepE_BRF_some (sum : Summary) (fr : FileRecord) (v : String) :
    stepE (sum, some fr) ⟨RecordBranchFound, v⟩ =
      (match Atoi v with
       | none => .error ("invalid branches found value: " ++ v)
       | some n => .ok (sum, some { fr with BranchesFound := n })) := rfl

theorem stepE_BRH_none (sum : Summary) (v : String) :
    stepE (sum, none) ⟨RecordBranchHit, v⟩ =
      .error "branch hit without source file" := rfl

theorem stepE_BRH_some (sum : Summary) (fr : FileRecord) (v : String) :
    stepE (sum, some fr) ⟨RecordBranchHit, v⟩ =
      (match Atoi v with
       | none => .error ("invalid branches hit value: " ++ v)
       | some n => .ok (sum, some { fr with BranchesHit := n })) := rfl

theorem stepE_EOR_none (sum : Summary) (v : String) :
    stepE (sum, none) ⟨RecordEndOfRecord, v⟩ = .ok (sum, none) := rfl

theorem stepE_EOR_some (sum : Summary) (fr : FileRecord) (v : String) :
    stepE (sum, some fr) ⟨RecordEndOfRecord, v⟩ = .ok (eorFold sum fr, none) := rfl

theorem stepE_other (st : PState) (t v : String)
    (n1 : t ≠ RecordTestName) (n2 : t ≠ RecordSourceFile)
    (n3 : t ≠ RecordLineData) (n4 : t ≠ RecordLinesFound)
    (n5 : t ≠ RecordLinesHit) (n6 : t ≠ RecordFunctionName)
    (n7 : t ≠ RecordFunctionData) (n8 : t ≠ RecordBranchData)
    (n9 : t ≠ RecordBranchFound) (n10 : t ≠ RecordBranchHit)
    (n11 : t ≠ RecordEndOfRecord) :
    stepE st ⟨t, v⟩ = .ok st := by
  simp [stepE, n1, n2, n3, n4, n5, n6, n7, n8, n9, n10, n11]

theorem stepE_ok_cases (st : PState) (r : Record) (st2 : PState)
    (h : stepE st r = .ok st2) :
    st2.1 = st.1 ∨ ∃ fr, st.2 = some fr ∧ r.rtype = RecordEndOfRecord ∧
      st2 = (eorFold st.1 fr, none) := by
  obtain ⟨sum, cf⟩ := st
  obtain ⟨t, v⟩ := r
  by_cases h1 : t = RecordTestName
  · subst h1
    cases cf with
    | none => rw [stepE_TN_none] at h; cases h; exact Or.inl rfl
    | some fr => rw [stepE_TN_some] at h; cases h; exact Or.inl rfl
  by_cases h2 : t = RecordSourceFile
  · subst h2
    cases cf with
    | none => rw [stepE_SF_none] at h; cases h; exact Or.inl rfl
    | some fr => rw [stepE_SF_some] at h; cases h; exact Or.inl rfl
  by_cases h3 : t = RecordLineData
  · subst h3
    cases cf with
    | none => rw [stepE_DA_none] at h; simp at h
    | some fr =>
      rw [stepE_DA_some] at h
      cases hp : parseLineData v with
      | error e => rw [hp] at h; simp at h
      | ok ld => rw [hp] at h; cases h; exact Or.inl rfl
  by_cases h4 : t = RecordLinesFound
  · subst h4
    cases cf with
    | none => rw [stepE_LF_none] at h; simp at h
    | some fr =>
      rw [stepE_LF_some] at h
      cases hp : Atoi v with
      | none => rw [hp] at h; simp at h
      | some n => rw [hp] at h; cases h; exact Or.inl rfl
  by_cases h5 : t = RecordLinesHit
  · subst h5
    cases cf with
    | none => rw [stepE_LH_none] at h; simp at h
    | some fr =>
      rw [stepE_LH_some] at h
      cases hp : Atoi v with
      | none => rw [hp] at h; simp at h
      | some n => rw [hp] at h; cases h; exact Or.inl rfl
  by_cases h6 : t = RecordFunctionName
  · subst h6
    cases cf with
    | none => rw [stepE_FN_none] at h; simp at h
    | some fr =>
      rw [stepE_FN_some] at h
      cases hp : parseFunctionName v with
      | error e => rw [hp] at h; simp at h
      | ok fd => rw [hp] at h; cases h; exact Or.inl rfl
  by_cases h7 : t = RecordFunctionData
  · subst h7
    cases cf with
    | none => rw [stepE_FNDA_none] at h; simp at h
    | some fr =>
      rw [stepE_FNDA_some] at h
      repeat' split at h
      all_goals (cases h; exact Or.inl rfl)
  by_cases h8 : t = RecordBranchData
  · subst h8
    cases cf with
    | none => rw [stepE_BRDA_none] at h; simp at h
    | some fr =>
      rw [stepE_BRDA_some] at h
      cases hp : parseBranchData v with
      | error e => rw [hp] at h; simp at h
      | ok bd => rw [hp] at h; cases h; exact Or.inl rfl
  by_cases h9 : t = RecordBranchFound
  · subst h9
    cases cf with
    | none => rw [stepE_BRF_none] at h; simp at h
    | some fr =>
      rw [stepE_BRF_some] at h
      cases hp : Atoi v with
      | none => rw [hp] at h; simp at h
      | some n => rw [hp] at h; cases h; exact Or.inl rfl
  by_cases h10 : t = RecordBranchHit
  · subst h10
    cases cf with
    | none => rw [stepE_BRH_none] at h; simp at h
    | some fr =>
      rw [stepE_BRH_some] at h
      cases hp : Atoi v with
      | none => rw [hp] at h; simp at h
      | some n => rw [hp] at h; cases h; exact Or.inl rfl
  by_cases h11 : t = RecordEndOfRecord
  · subst h11
    cases cf with
    | none => rw [stepE_EOR_none] at h; cases h; exact Or.inl rfl
    | some fr =>
      rw [stepE_EOR_some] at h; cases h
      exact Or.inr ⟨fr, rfl, rfl, rfl⟩
  · rw [stepE_other _ _ _ h1 h2 h3 h4 h5 h6 h7 h8 h9 h10 h11] at h
    cases h; exact Or.inl rfl

theorem stepE_summary_of_ne (st : PState) (r : Record) (st2 : PState)
    (hne : r.rtype ≠ RecordEndOfRecord) (h : stepE st r = .ok st2) :
    st2.1 = st.1 := by
  rcases stepE_ok_cases st r st2 h with hA | ⟨fr, _, hEOR, _⟩
  · exact hA
  · exact absurd hEOR hne

/-- Invariant of the extended parser's loop: the running totals are the
sums of the corresponding per-file fields over the closed blocks collected
in `Files`, and the rate fields are still zero. -/
def loopInv (s : Summary) : Prop :=
  s.TotalFiles = (s.Files.length : Int) ∧
  s.TotalLines = sumBy (fun f => f.LinesFound) s.Files ∧
  s.CoveredLines = sumBy (fun f => f.LinesHit) s.Files ∧
  s.TotalFunctions = sumBy (fun f => (f.Functions.length : Int)) s.Files ∧
  s.CoveredFunctions = sumBy (fun f => f.FunctionsHit) s.Files ∧
  s.TotalBranches = sumBy (fun f => f.BranchesFound) s.Files ∧
  s.CoveredBranches = sumBy (fun f => f.BranchesHit) s.Files ∧
  s.LineCoverageRate = 0 ∧ s.FunctionCoverageRate = 0 ∧ s.BranchCoverageRate = 0

theorem sumBy_append (f : FileRecord → Int) (l : List FileRecord) (x : FileRecord) :
    sumBy f (l ++ [x]) = sumBy f l + f x := by
  simp [sumBy]

theorem eorFold_loopInv (s : Summary) (fr : FileRecord) (h : loopInv s) :
    loopInv (eorFold s fr) := by
  obtain ⟨h1, h2, h3, h4, h5, h6, h7, h8, h9, h10⟩ := h
  refine ⟨?_, ?_, ?_, ?_, ?_, ?_, ?_, ?_, ?_, ?_⟩ <;>
    simp [eorFold, sumBy_append, h1, h2, h3, h4, h5, h6, h7, h8, h9, h10]

theorem stepE_loopInv (st : PState) (r : Record) (st2 : PState)
    (hinv : loopInv st.1) (h : stepE st r = .ok st2) : loopInv st2.1 := by
  rcases stepE_ok_cases st r st2 h with hA | ⟨fr, _, _, hEOR⟩
  · rwa [hA]
  · rw [hEOR]; exact eorFold_loopInv st.1 fr hinv

theorem processLine_loopInv (st : PState) (l : String) (st2 : PState)
    (hinv : loopInv st.1) (h : processLine st l = .ok st2) : loopInv st2.1 := by
  simp only [processLine] at h
  split at h
  · cases h; exact hinv
  · cases hp : parseRecord (trimSpace l) with
    | error e => rw [hp] at h; simp at h
    | ok r => rw [hp] at h; exact stepE_loopInv st r st2 hinv h

theorem runLines_loopInv (lines : List String) (st st2 : PState)
    (hinv : loopInv st.1) (h : runLines st lines = .ok st2) : loopInv st2.1 := by
  induction lines generalizing st with
  | nil => cases h; exact hinv
  | cons l ls ih =>
    unfold runLines at h
    cases hp : processLine st l with
    | error e => rw [hp] at h; simp at h
    | ok st1 =>
      rw [hp] at h
      exact ih st1 (processLine_loopInv st l st1 hinv hp) h

theorem loopInv_init : loopInv ({} : Summary) := by
  refine ⟨?_, ?_, ?_, ?_, ?_, ?_, ?_, ?_, ?_, ?_⟩ <;> rfl

/-- `finalize` leaves every aggregate count and the `Files` list unchanged. -/
theorem finalize_counts (s : Summary) :
    (finalize s).TotalFiles = s.TotalFiles ∧
    (finalize s).TotalLines = s.TotalLines ∧
    (finalize s).CoveredLines = s.CoveredLines ∧
    (finalize s).TotalFunctions = s.TotalFunctions ∧
    (finalize s).CoveredFunctions = s.CoveredFunctions ∧
    (finalize s).TotalBranches = s.TotalBranches ∧
    (finalize s).CoveredBranches = s.CoveredBranches ∧
    (finalize s).Files = s.Files := by
  simp only [finalize]
  split_ifs <;> simp

/-- Value of each rate after `finalize`, given that the rates were still
zero when the loop finished. -/
theorem finalize_rates (s : Summary) (hl : s.LineCoverageRate = 0)
    (hf : s.FunctionCoverageRate = 0) (hb : s.BranchCoverageRate = 0) :
    (finalize s).LineCoverageRate =
      (if s.TotalLines > 0 then (s.CoveredLines : ℚ) / (s.TotalLines : ℚ) * 100 else 0) ∧
    (finalize s).FunctionCoverageRate =
      (if s.TotalFunctions > 0 then
        (s.CoveredFunctions : ℚ) / (s.TotalFunctions : ℚ) * 100 else 0) ∧
    (finalize s).BranchCoverageRate =
      (if s.TotalBranches > 0 then
        (s.CoveredBranches : ℚ) / (s.TotalBranches : ℚ) * 100 else 0) := by
  simp only [finalize]
  split_ifs <;> simp_all

/-- Inversion for `Parse`: a returned summary is the finalization of a
state the loop reached without error. -/
theorem Parse_some (lines : List String) (readErr : Option String) (s : Summary)
    (h : (Parse lines readErr).1 = some s) :
    ∃ st, runLines ({}, none) lines = .ok st ∧ s = finalize st.1 := by
  unfold Parse at h
  cases hr : runLines ({}, none) lines with
  | error e => rw [hr] at h; simp at h
  | ok st => rw [hr] at h; simp at h; exact ⟨st, rfl, h.symm⟩

/-- When the loop finishes without a parse error, `Parse` returns the
finalized accumulated summary together with the scanner's read error. -/
theorem Parse_of_runLines (lines : List String) (readErr : Option String)
    (st : PState) (h : runLines ({}, none) lines = .ok st) :
    Parse lines readErr = (some (finalize st.1), readErr) := by
  unfold Parse
  rw [h]

/-- If the loop reaches state `st` and the next line tokenizes to a record
on which the state machine fails, the whole parse fails with that error
and no summary. -/
theorem Parse_aborts_at (pre : List String) (line : String) (rest : List String)
    (readErr : Option String) (st : PState) (r : Record) (e : String)
    (hrun : runLines ({}, none) pre = .ok st)
    (hne : trimSpace line ≠ "") (htok : parseRecord (trimSpace line) = .ok r)
    (hstep : stepE st r = .error e) :
    Parse (pre ++ line :: rest) readErr = (none, some e) := by
  have hpl : processLine st line = .error e := by
    simp only [processLine]
    rw [if_neg hne, htok]
    exact hstep
  have hrunAll : runLines ({}, none) (pre ++ line :: rest) = .error e := by
    rw [runLines_append, hrun]
    show runLines st (line :: rest) = .error e
    unfold runLines
    rw [hpl]
  unfold Parse
  rw [hrunAll]

/-- The `FNDA` case inside an open block never fails and increments the
functions-hit counter exactly under `fndaHit`. -/
theorem stepE_FNDA_update (sum : Summary) (fr : FileRecord) (v : String) :
    stepE (sum, some fr) ⟨RecordFunctionData, v⟩ =
      .ok (sum, some
        { fr with FunctionsHit := fr.FunctionsHit + (if fndaHit v then 1 else 0) }) := by
  rw [stepE_FNDA_some]
  unfold fndaHit
  rcases hs : goSplit ',' v with _ | ⟨p0, _ | ⟨p1, _ | ⟨q, qs⟩⟩⟩ <;> simp only [hs] <;>
    try simp
  cases hp : Atoi p0 with
  | none => simp
  | some n => by_cases hn : n > 0 <;> simp [hn]

/-- `fndaHit` holds exactly when the value splits on comma into two parts
whose first parses as a positive integer. -/
theorem fndaHit_iff (v : String) :
    fndaHit v = true ↔
      ∃ p0 p1 n, goSplit ',' v = [p0, p1] ∧ Atoi p0 = some n ∧ n > 0 := by
  unfold fndaHit
  rcases hs : goSplit ',' v with _ | ⟨p0, _ | ⟨p1, _ | ⟨q, qs⟩⟩⟩ <;> simp [hs]
  cases hp : Atoi p0 <;> simp [hp]

/-- A malformed `DA` payload aborts the step with the payload error. -/
theorem stepE_DA_error (sum : Summary) (fr : FileRecord) (v e : String)
    (h : parseLineData v = .error e) :
    stepE (sum, some fr) ⟨RecordLineData, v⟩ = .error e := by
  rw [stepE_DA_some, h]

/-- A malformed `BRDA` payload aborts the step with the payload error. -/
theorem stepE_BRDA_error (sum : Summary) (fr : FileRecord) (v e : String)
    (h : parseBranchData v = .error e) :
    stepE (sum, some fr) ⟨RecordBranchData, v⟩ = .error e := by
  rw [stepE_BRDA_some, h]

/-! ## Reduction equations for the counters-only parser's step function -/

theorem stepC_TN (c : CState) (v : String) :
    stepC c ⟨RecordTestName, v⟩ = .ok c := rfl

theorem stepC_SF (c : CState) (v : String) :
    stepC c ⟨RecordSourceFile, v⟩ =
      .ok { c with inFile := true
                   currentFileLinesFound := 0
                   currentFileLinesHit := 0
                   currentFileFunctions := 0
                   currentFileFunctionsHit := 0
                   currentFileBranchesFound := 0
                   currentFileBranchesHit := 0 } := rfl

theorem stepC_DA_out (c : CState) (v : String) (h : c.inFile = false) :
    stepC c ⟨RecordLineData, v⟩ = .error "line data without source file" := by
  simp [stepC, h, RecordTestName, RecordSourceFile, RecordLineData]

theorem stepC_DA_in (c : CState) (v : String) (h : c.inFile = true) :
    stepC c ⟨RecordLineData, v⟩ =
      (if isValidLineData v then .ok c
       else .error ("invalid line data format: " ++ v)) := by
  simp [stepC, h, RecordTestName, RecordSourceFile, RecordLineData]

theorem stepC_LF_out (c : CState) (v : String) (h : c.inFile = false) :
    stepC c ⟨RecordLinesFound, v⟩ = .error "lines found without source file" := by
  simp [stepC, h, RecordTestName, RecordSourceFile, RecordLineData, RecordLinesFound]

theorem stepC_LF_in (c : CState) (v : String) (h : c.inFile = true) :
    stepC c ⟨RecordLinesFound, v⟩ =
      (match Atoi v with
       | none => .error ("invalid lines found value: " ++ v)
       | some n => .ok { c with currentFileLinesFound := n }) := by
  simp [stepC, h, RecordTestName, RecordSourceFile, RecordLineData, RecordLinesFound]

theorem stepC_LH_out (c : CState) (v : String) (h : c.inFile = false) :
    stepC c ⟨RecordLinesHit, v⟩ = .error "lines hit without source file" := by
  simp [stepC, h, RecordTestName, RecordSourceFile, RecordLineData, RecordLinesFound,
    RecordLinesHit]

theorem stepC_LH_in (c : CState) (v : String) (h : c.inFile = true) :
    stepC c ⟨RecordLinesHit, v⟩ =
      (match Atoi v with
       | none => .error ("invalid lines hit value: " ++ v)
       | some n => .ok { c with currentFileLinesHit := n }) := by
  simp [stepC, h, RecordTestName, RecordSourceFile, RecordLineData, RecordLinesFound,
    RecordLinesHit]

theorem stepC_FN_out (c : CState) (v : String) (h : c.inFile = false) :
    stepC c ⟨RecordFunctionName, v⟩ = .error "function name without source file" := by
  simp [stepC, h, RecordTestName, RecordSourceFile, RecordLineData, RecordLinesFound,
    RecordLinesHit, RecordFunctionName]

theorem stepC_FN_in (c : CState) (v : String) (h : c.inFile = true) :
    stepC c ⟨RecordFunctionName, v⟩ =
      (if isValidFunctionName v then
        .ok { c with currentFileFunctions := c.currentFileFunctions + 1 }
       else .error ("invalid function name format: " ++ v)) := by
  simp [stepC, h, RecordTestName, RecordSourceFile, RecordLineData, RecordLinesFound,
    RecordLinesHit, RecordFunctionName]

theorem stepC_FNDA_out (c : CState) (v : String) (h : c.inFile = false) :
    stepC c ⟨RecordFunctionData, v⟩ = .error "function data without source file" := by
  simp [stepC, h, RecordTestName, RecordSourceFile, RecordLineData, RecordLinesFound,
    RecordLinesHit, RecordFunctionName, RecordFunctionData]

theorem stepC_FNDA_in (c : CState) (v : String) (h : c.inFile = true) :
    stepC c ⟨RecordFunctionData, v⟩ =
      (match goSplit ',' v with
       | [p0, _p1] =>
         match Atoi p0 with
         | some n =>
           if n > 0 then
             .ok { c with currentFileFunctionsHit := c.currentFileFunctionsHit + 1 }
           else .ok c
         | none => .ok c
       | _ => .ok c) := by
  simp [stepC, h, RecordTestName, RecordSourceFile, RecordLineData, RecordLinesFound,
    RecordLinesHit, RecordFunctionName, RecordFunctionData]

theorem stepC_BRDA_out (c : CState) (v : String) (h : c.inFile = false) :
    stepC c ⟨RecordBranchData, v⟩ = .error "branch data without source file" := by
  simp [stepC, h, RecordTestName, RecordSourceFile, RecordLineData, RecordLinesFound,
    RecordLinesHit, RecordFunctionName, RecordFunctionData, RecordBranchData]

theorem stepC_BRDA_in (c : CState) (v : String) (h : c.inFile = true) :
    stepC c ⟨RecordBranchData, v⟩ =
      (if isValidBranchData v then .ok c
       else .error ("invalid branch data format: " ++ v)) := by
  simp [stepC, h, RecordTestName, RecordSourceFile, RecordLineData, RecordLinesFound,
    RecordLinesHit, RecordFunctionName, RecordFunctionData, RecordBranchData]

theorem stepC_BRF_out (c : CState) (v : String) (h : c.inFile = false) :
    stepC c ⟨RecordBranchFound, v⟩ = .error "branch found without source file" := by
  simp [stepC, h, RecordTestName, RecordSourceFile, RecordLineData, RecordLinesFound,
    RecordLinesHit, RecordFunctionName, RecordFunctionData, RecordBranchData,
    RecordBranchFound]

theorem stepC_BRF_in (c : CState) (v : String) (h : c.inFile = true) :
    stepC c ⟨RecordBranchFound, v⟩ =
      (match Atoi v with
       | none => .error ("invalid branches found value: " ++ v)
       | some n => .ok { c with currentFileBranchesFound := n }) := by
  simp [stepC, h, RecordTestName, RecordSourceFile, RecordLineData, RecordLinesFound,
    RecordLinesHit, RecordFunctionName, RecordFunctionData, RecordBranchData,
    RecordBranchFound]

theorem stepC_BRH_out (c : CState) (v : String) (h : c.inFile = false) :
    stepC c ⟨RecordBranchHit, v⟩ = .error "branch hit without source file" := by
  simp [stepC, h, RecordTestName, RecordSourceFile, RecordLineData, RecordLinesFound,
    RecordLinesHit, RecordFunctionName, RecordFunctionData, RecordBranchData,
    RecordBranchFound, RecordBranchHit]

theorem stepC_BRH_in (c : CState) (v : String) (h : c.inFile = true) :
    stepC c ⟨RecordBranchHit, v⟩ =
      (match Atoi v with
       | none => .error ("invalid branches hit value: " ++ v)
       | some n => .ok { c with currentFileBranchesHit := n }) := by
  simp [stepC, h, RecordTestName, RecordSourceFile, RecordLineData, RecordLinesFound,
    RecordLinesHit, RecordFunctionName, RecordFunctionData, RecordBranchData,
    RecordBranchFound, RecordBranchHit]

theorem stepC_EOR_out (c : CState) (v : String) (h : c.inFile = false) :
    stepC c ⟨RecordEndOfRecord, v⟩ = .ok c := by
  simp [stepC, h, RecordTestName, RecordSourceFile, RecordLineData, RecordLinesFound,
    RecordLinesHit, RecordFunctionName, RecordFunctionData, RecordBranchData,
    RecordBranchFound, RecordBranchHit, RecordEndOfRecord]

theorem stepC_EOR_in (c : CState) (v : String) (h : c.inFile = true) :
    stepC c ⟨RecordEndOfRecord, v⟩ = .ok (eorFoldC c) := by
  simp [stepC, h, RecordTestName, RecordSourceFile, RecordLineData, RecordLinesFound,
    RecordLinesHit, RecordFunctionName, RecordFunctionData, RecordBranchData,
    RecordBranchFound, RecordBranchHit, RecordEndOfRecord]

theorem stepC_other (c : CState) (t v : String)
    (n1 : t ≠ RecordTestName) (n2 : t ≠ RecordSourceFile)
    (n3 : t ≠ RecordLineData) (n4 : t ≠ RecordLinesFound)
    (n5 : t ≠ RecordLinesHit) (n6 : t ≠ RecordFunctionName)
    (n7 : t ≠ RecordFunctionData) (n8 : t ≠ RecordBranchData)
    (n9 : t ≠ RecordBranchFound) (n10 : t ≠ RecordBranchHit)
    (n11 : t ≠ RecordEndOfRecord) :
    stepC c ⟨t, v⟩ = .ok c := by
  simp [stepC, n1, n2, n3, n4, n5, n6, n7, n8, n9, n10, n11]

/-! ## Refinement between the two parsers -/

theorem okRecord_TN (inF : Bool) (v : String)
    (h : okRecord inF ⟨RecordTestName, v⟩ = true) : inF = true := by
  simpa [okRecord, RecordTestName, RecordSourceFile] using h

theorem okRecord_SF (inF : Bool) (v : String)
    (h : okRecord inF ⟨RecordSourceFile, v⟩ = true) : inF = false := by
  simpa [okRecord, RecordTestName, RecordSourceFile] using h

theorem updFlag_TN (inF : Bool) (v : String) :
    updFlag inF ⟨RecordTestName, v⟩ = inF := by
  simp [updFlag, RecordTestName, RecordSourceFile, RecordEndOfRecord]

theorem updFlag_SF (inF : Bool) (v : String) :
    updFlag inF ⟨RecordSourceFile, v⟩ = true := by
  simp [updFlag, RecordSourceFile]

theorem updFlag_EOR (inF : Bool) (v : String) :
    updFlag inF ⟨RecordEndOfRecord, v⟩ = false := by
  simp [updFlag, RecordSourceFile, RecordEndOfRecord]

theorem updFlag_other (inF : Bool) (t v : String)
    (n2 : t ≠ RecordSourceFile) (n11 : t ≠ RecordEndOfRecord) :
    updFlag inF ⟨t, v⟩ = inF := by
  simp [updFlag, n2, n11]

/-- The `FNDA` case of the counters-only parser, inside a file. -/
theorem stepC_FNDA_update (c : CState) (v : String) (h : c.inFile = true) :
    stepC c ⟨RecordFunctionData, v⟩ =
      .ok { c with currentFileFunctionsHit :=
              c.currentFileFunctionsHit + (if fndaHit v then 1 else 0) } := by
  rw [stepC_FNDA_in c v h]
  unfold fndaHit
  rcases hs : goSplit ',' v with _ | ⟨p0, _ | ⟨p1, _ | ⟨q, qs⟩⟩⟩ <;> simp only [hs] <;>
    try simp
  cases hp : Atoi p0 with
  | none => simp
  | some n => by_cases hn : n > 0 <;> simp [hn]

/-- Folding a related open block into the two summaries preserves the
correspondence of the shared fields. -/
theorem eorFold_toCounters (sum : Summary) (fr : FileRecord) (c : CState)
    (hsum : toCounters sum = c.summary) (hrf : RelFile fr c) :
    toCounters (eorFold sum fr) = (eorFoldC c).summary := by
  obtain ⟨f1, f2, f3, f4, f5, f6⟩ := hrf
  simp only [eorFoldC]
  rw [← hsum]
  simp [toCounters, eorFold, f1, f2, f3, f4, f5, f6]

/-- One-step agreement of the two parsers: starting from related states, a
record whose placement satisfies `okRecord` either succeeds on both sides
with related results (and the tracked flag), or fails on both sides. -/
theorem step_agree (sum : Summary) (cf : Option FileRecord) (c : CState)
    (r : Record) (hrel : Rel (sum, cf) c)
    (hok : okRecord c.inFile r = true) :
    (∃ st2 c2, stepE (sum, cf) r = .ok st2 ∧ stepC c r = .ok c2 ∧ Rel st2 c2 ∧
       c2.inFile = updFlag c.inFile r) ∨
    (∃ e1 e2, stepE (sum, cf) r = .error e1 ∧ stepC c r = .error e2) := by
  obtain ⟨hsum, hcf⟩ := hrel
  obtain ⟨t, v⟩ := r
  by_cases h1 : t = RecordTestName
  · subst h1
    have hin := okRecord_TN c.inFile v hok
    rcases hcf with ⟨hnone, hflag⟩ | ⟨fr, hsome, hflag, hrf⟩
    · rw [hflag] at hin; cases hin
    · simp only at hsome
      subst hsome
      exact Or.inl ⟨(sum, some { fr with TestName := v }), c,
        stepE_TN_some sum fr v, stepC_TN c v,
        ⟨hsum, Or.inr ⟨_, rfl, hflag, hrf⟩⟩, by rw [updFlag_TN]⟩
  by_cases h2 : t = RecordSourceFile
  · subst h2
    have hout := okRecord_SF c.inFile v hok
    rcases hcf with ⟨hnone, hflag⟩ | ⟨fr, hsome, hflag, hrf⟩
    · simp only at hnone
      subst hnone
      refine Or.inl ⟨(sum, some { SourceFile := v }),
        { c with inFile := true
                 currentFileLinesFound := 0
                 currentFileLinesHit := 0
                 currentFileFunctions := 0
                 currentFileFunctionsHit := 0
                 currentFileBranchesFound := 0
                 currentFileBranchesHit := 0 },
        stepE_SF_none sum v, stepC_SF c v,
        ⟨hsum, Or.inr ⟨_, rfl, rfl, ?_⟩⟩, by rw [updFlag_SF]⟩
      exact ⟨rfl, rfl, rfl, rfl, rfl, rfl⟩
    · rw [hflag] at hout; cases hout
  by_cases h3 : t = RecordLineData
  · subst h3
    rcases hcf with ⟨hnone, hflag⟩ | ⟨fr, hsome, hflag, hrf⟩
    · simp only at hnone
      subst hnone
      exact Or.inr ⟨_, _, stepE_DA_none sum v, stepC_DA_out c v hflag⟩
    · simp only at hsome
      subst hsome
      cases hp : parseLineData v with
      | error e =>
        have hval : isValidLineData v = false := by rw [isValidLineData_eq, hp]; rfl
        refine Or.inr ⟨e, "invalid line data format: " ++ v,
          stepE_DA_error sum fr v e hp, ?_⟩
        rw [stepC_DA_in c v hflag, hval]
        rfl
      | ok ld =>
        have hval : isValidLineData v = true := by rw [isValidLineData_eq, hp]; rfl
        refine Or.inl ⟨(sum, some { fr with Lines := fr.Lines ++ [ld] }), c,
          by rw [stepE_DA_some, hp], by rw [stepC_DA_in c v hflag, hval]; rfl,
          ⟨hsum, Or.inr ⟨_, rfl, hflag, hrf⟩⟩,
          by rw [updFlag_other _ _ _ (by decide) (by decide)]⟩
  by_cases h4 : t = RecordLinesFound
  · subst h4
    rcases hcf with ⟨hnone, hflag⟩ | ⟨fr, hsome, hflag, hrf⟩
    · simp only at hnone
      subst hnone
      exact Or.inr ⟨_, _, stepE_LF_none sum v, stepC_LF_out c v hflag⟩
    · simp only at hsome
      subst hsome
      cases hp : Atoi v with
      | none =>
        refine Or.inr ⟨"invalid lines found value: " ++ v,
          "invalid lines found value: " ++ v, by rw [stepE_LF_some, hp], ?_⟩
        rw [stepC_LF_in c v hflag, hp]
      | some n =>
        obtain ⟨f1, f2, f3, f4, f5, f6⟩ := hrf
        refine Or.inl ⟨(sum, some { fr with LinesFound := n }),
          { c with currentFileLinesFound := n },
          by rw [stepE_LF_some, hp], by rw [stepC_LF_in c v hflag, hp],
          ⟨hsum, Or.inr ⟨_, rfl, hflag, rfl, f2, f3, f4, f5, f6⟩⟩,
          by rw [updFlag_other _ _ _ (by decide) (by decide)]⟩
  by_cases h5 : t = RecordLinesHit
  · subst h5
    rcases hcf with ⟨hnone, hflag⟩ | ⟨fr, hsome, hflag, hrf⟩
    · simp only at hnone
      subst hnone
      exact Or.inr ⟨_, _, stepE_LH_none sum v, stepC_LH_out c v hflag⟩
    · simp only at hsome
      subst hsome
      cases hp : Atoi v with
      | none =>
        refine Or.inr ⟨"invalid lines hit value: " ++ v,
          "invalid lines hit value: " ++ v, by rw [stepE_LH_some, hp], ?_⟩
        rw [stepC_LH_in c v hflag, hp]
      | some n =>
        obtain ⟨f1, f2, f3, f4, f5, f6⟩ := hrf
        refine Or.inl ⟨(sum, some { fr with LinesHit := n }),
          { c with currentFileLinesHit := n },
          by rw [stepE_LH_some, hp], by rw [stepC_LH_in c v hflag, hp],
          ⟨hsum, Or.inr ⟨_, rfl, hflag, f1, rfl, f3, f4, f5, f6⟩⟩,
          by rw [updFlag_other _ _ _ (by decide) (by decide)]⟩
  by_cases h6 : t = RecordFunctionName
  · subst h6
    rcases hcf with ⟨hnone, hflag⟩ | ⟨fr, hsome, hflag, hrf⟩
    · simp only at hnone
      subst hnone
      exact Or.inr ⟨_, _, stepE_FN_none sum v, stepC_FN_out c v hflag⟩
    · simp only at hsome
      subst hsome
      cases hp : parseFunctionName v with
      | error e =>
        have hval : isValidFunctionName v = false := by
          rw [isValidFunctionName_eq, hp]; rfl
        refine Or.inr ⟨e, "invalid function name format: " ++ v,
          by rw [stepE_FN_some, hp], ?_⟩
        rw [stepC_FN_in c v hflag, hval]
        rfl
      | ok fd =>
        have hval : isValidFunctionName v = true := by
          rw [isValidFunctionName_eq, hp]; rfl
        obtain ⟨f1, f2, f3, f4, f5, f6⟩ := hrf
        refine Or.inl ⟨(sum, some { fr with Functions := fr.Functions ++ [fd] }),
          { c with currentFileFunctions := c.currentFileFunctions + 1 },
          by rw [stepE_FN_some, hp], by rw [stepC_FN_in c v hflag, hval]; rfl,
          ⟨hsum, Or.inr ⟨_, rfl, hflag, f1, f2, ?_, f4, f5, f6⟩⟩,
          by rw [updFlag_other _ _ _ (by decide) (by decide)]⟩
        simp only [List.length_append, List.length_cons, List.length_nil]
        push_cast
        omega
  by_cases h7 : t = RecordFunctionData
  · subst h7
    rcases hcf with ⟨hnone, hflag⟩ | ⟨fr, hsome, hflag, hrf⟩
    · simp only at hnone
      subst hnone
      exact Or.inr ⟨_, _, stepE_FNDA_none sum v, stepC_FNDA_out c v hflag⟩
    · simp only at hsome
      subst hsome
      obtain ⟨f1, f2, f3, f4, f5, f6⟩ := hrf
      refine Or.inl ⟨_, _, stepE_FNDA_update sum fr v, stepC_FNDA_update c v hflag,
        ⟨hsum, Or.inr ⟨_, rfl, hflag, f1, f2, f3, ?_, f5, f6⟩⟩,
        by rw [updFlag_other _ _ _ (by decide) (by decide)]⟩
      simp only []
      rw [f4]
  by_cases h8 : t = RecordBranchData
  · subst h8
    rcases hcf with ⟨hnone, hflag⟩ | ⟨fr, hsome, hflag, hrf⟩
    · simp only at hnone
      subst hnone
      exact Or.inr ⟨_, _, stepE_BRDA_none sum v, stepC_BRDA_out c v hflag⟩
    · simp only at hsome
      subst hsome
      cases hp : parseBranchData v with
      | error e =>
        have hval : isValidBranchData v = false := by rw [isValidBranchData_eq, hp]; rfl
        refine Or.inr ⟨e, "invalid branch data format: " ++ v,
          stepE_BRDA_error sum fr v e hp, ?_⟩
        rw [stepC_BRDA_in c v hflag, hval]
        rfl
      | ok bd =>
        have hval : isValidBranchData v = true := by rw [isValidBranchData_eq, hp]; rfl
        refine Or.inl ⟨(sum, some { fr with Branches := fr.Branches ++ [bd] }), c,
          by rw [stepE_BRDA_some, hp], by rw [stepC_BRDA_in c v hflag, hval]; rfl,
          ⟨hsum, Or.inr ⟨_, rfl, hflag, hrf⟩⟩,
          by rw [updFlag_other _ _ _ (by decide) (by decide)]⟩
  by_cases h9 : t = RecordBranchFound
  · subst h9
    rcases hcf with ⟨hnone, hflag⟩ | ⟨fr, hsome, hflag, hrf⟩
    · simp only at hnone
      subst hnone
      exact Or.inr ⟨_, _, stepE_BRF_none sum v, stepC_BRF_out c v hflag⟩
    · simp only at hsome
      subst hsome
      cases hp : Atoi v with
      | none =>
        refine Or.inr ⟨"invalid branches found value: " ++ v,
          "invalid branches found value: " ++ v, by rw [stepE_BRF_some, hp], ?_⟩
        rw [stepC_BRF_in c v hflag, hp]
      | some n =>
        obtain ⟨f1, f2, f3, f4, f5, f6⟩ := hrf
        refine Or.inl ⟨(sum, some { fr with BranchesFound := n }),
          { c with currentFileBranchesFound := n },
          by rw [stepE_BRF_some, hp], by rw [stepC_BRF_in c v hflag, hp],
          ⟨hsum, Or.inr ⟨_, rfl, hflag, f1, f2, f3, f4, rfl, f6⟩⟩,
          by rw [updFlag_other _ _ _ (by decide) (by decide)]⟩
  by_cases h10 : t = RecordBranchHit
  · subst h10
    rcases hcf with ⟨hnone, hflag⟩ | ⟨fr, hsome, hflag, hrf⟩
    · simp only at hnone
      subst hnone
      exact Or.inr ⟨_, _, stepE_BRH_none sum v, stepC_BRH_out c v hflag⟩
    · simp only at hsome
      subst hsome
      cases hp : Atoi v with
      | none =>
        refine Or.inr ⟨"invalid branches hit value: " ++ v,
          "invalid branches hit value: " ++ v, by rw [stepE_BRH_some, hp], ?_⟩
        rw [stepC_BRH_in c v hflag, hp]
      | some n =>
        obtain ⟨f1, f2, f3, f4, f5, f6⟩ := hrf
        refine Or.inl ⟨(sum, some { fr with BranchesHit := n }),
          { c with currentFileBranchesHit := n },
          by rw [stepE_BRH_some, hp], by rw [stepC_BRH_in c v hflag, hp],
          ⟨hsum, Or.inr ⟨_, rfl, hflag, f1, f2, f3, f4, f5, rfl⟩⟩,
          by rw [updFlag_other _ _ _ (by decide) (by decide)]⟩
  by_cases h11 : t = RecordEndOfRecord
  · subst h11
    rcases hcf with ⟨hnone, hflag⟩ | ⟨fr, hsome, hflag, hrf⟩
    · simp only at hnone
      subst hnone
      exact Or.inl ⟨(sum, none), c, stepE_EOR_none sum v, stepC_EOR_out c v hflag,
        ⟨hsum, Or.inl ⟨rfl, hflag⟩⟩, by rw [updFlag_EOR, hflag]⟩
    · simp only at hsome
      subst hsome
      refine Or.inl ⟨(eorFold sum fr, none), eorFoldC c,
        stepE_EOR_some sum fr v, stepC_EOR_in c v hflag,
        ⟨eorFold_toCounters sum fr c hsum hrf, Or.inl ⟨rfl, rfl⟩⟩,
        by rw [updFlag_EOR]; rfl⟩
  · have hE := stepE_other (sum, cf) t v h1 h2 h3 h4 h5 h6 h7 h8 h9 h10 h11
    have hC := stepC_other c t v h1 h2 h3 h4 h5 h6 h7 h8 h9 h10 h11
    exact Or.inl ⟨(sum, cf), c, hE, hC, ⟨hsum, hcf⟩,
      by rw [updFlag_other _ _ _ h2 h11]⟩

/-- Run-level agreement: from related states, an input satisfying
`agreeLines` drives both loops to related final states, or makes both
loops fail. -/
theorem runAgree (lines : List String) (st : PState) (c : CState)
    (hrel : Rel st c) (hcond : agreeLines c.inFile lines = true) :
    (∃ st2 c2, runLines st lines = .ok st2 ∧ runLinesC c lines = .ok c2 ∧
      Rel st2 c2) ∨
    (∃ e1 e2, runLines st lines = .error e1 ∧ runLinesC c lines = .error e2) := by
  induction lines generalizing st c with
  | nil => exact Or.inl ⟨st, c, rfl, rfl, hrel⟩
  | cons l ls ih =>
    by_cases hblank : trimSpace l = ""
    · have hE : processLine st l = .ok st := by simp [processLine, hblank]
      have hC : processLineC c l = .ok c := by simp [processLineC, hblank]
      have hcond2 : agreeLines c.inFile ls = true := by
        simp only [agreeLines, hblank, if_pos] at hcond
        exact hcond
      unfold runLines runLinesC
      rw [hE, hC]
      exact ih st c hrel hcond2
    · cases htok : parseRecord (trimSpace l) with
      | error e =>
        refine Or.inr ⟨"failed to parse line '" ++ trimSpace l ++ "': " ++ e,
          "failed to parse line '" ++ trimSpace l ++ "': " ++ e, ?_, ?_⟩
        · have hE : processLine st l =
              .error ("failed to parse line '" ++ trimSpace l ++ "': " ++ e) := by
            simp only [processLine]
            rw [if_neg hblank, htok]
          unfold runLines
          rw [hE]
        · have hC : processLineC c l =
              .error ("failed to parse line '" ++ trimSpace l ++ "': " ++ e) := by
            simp only [processLineC]
            rw [if_neg hblank, htok]
          unfold runLinesC
          rw [hC]
      | ok r =>
        have hcond' : okRecord c.inFile r = true ∧
            agreeLines (updFlag c.inFile r) ls = true := by
          simp only [agreeLines, hblank, htok, if_false, Bool.and_eq_true] at hcond
          exact hcond
        obtain ⟨hokr, htail⟩ := hcond'
        obtain ⟨sum, cf⟩ := st
        rcases step_agree sum cf c r hrel hokr with
          ⟨st2, c2, hsE, hsC, hrel2, hflag2⟩ | ⟨e1, e2, hsE, hsC⟩
        · have hE : processLine (sum, cf) l = .ok st2 := by
            simp only [processLine]
            rw [if_neg hblank, htok]
            exact hsE
          have hC : processLineC c l = .ok c2 := by
            simp only [processLineC]
            rw [if_neg hblank, htok]
            exact hsC
          have htail2 : agreeLines c2.inFile ls = true := by
            rw [hflag2]
            exact htail
          unfold runLines runLinesC
          rw [hE, hC]
          exact ih st2 c2 hrel2 htail2
        · refine Or.inr ⟨e1, e2, ?_, ?_⟩
          · have hE : processLine (sum, cf) l = .error e1 := by
              simp only [processLine]
              rw [if_neg hblank, htok]
              exact hsE
            unfold runLines
            rw [hE]
          · have hC : processLineC c l = .error e2 := by
              simp only [processLineC]
              rw [if_neg hblank, htok]
              exact hsC
            unfold runLinesC
            rw [hC]

/-- Finalization commutes with forgetting the `Files` list. -/
theorem toCounters_finalize (s : Summary) :
    toCounters (finalize s) = finalizeC (toCounters s) := by
  by_cases h1 : s.TotalLines > 0 <;> by_cases h2 : s.TotalFunctions > 0 <;>
    by_cases h3 : s.TotalBranches > 0 <;>
    simp [finalize, finalizeC, toCounters, h1, h2, h3]

/-! ## Claim theorems -/

/-- Claim C1: whenever `Parse` (and hence `Summarize`) returns a `Summary`,
each of the three coverage rates equals `100 * covered / total` when the
corresponding total is positive, and equals `0` when the corresponding
total is zero (no division by zero). -/
theorem c1_coverage_rates (lines : List String) (readErr : Option String)
    (s : Summary) (h : (Parse lines readErr).1 = some s) :
    (s.TotalLines > 0 →
      s.LineCoverageRate = 100 * (s.CoveredLines : ℚ) / (s.TotalLines : ℚ)) ∧
    (s.TotalLines = 0 → s.LineCoverageRate = 0) ∧
    (s.TotalFunctions > 0 →
      s.FunctionCoverageRate = 100 * (s.CoveredFunctions : ℚ) / (s.TotalFunctions : ℚ)) ∧
    (s.TotalFunctions = 0 → s.FunctionCoverageRate = 0) ∧
    (s.TotalBranches > 0 →
      s.BranchCoverageRate = 100 * (s.CoveredBranches : ℚ) / (s.TotalBranches : ℚ)) ∧
    (s.TotalBranches = 0 → s.BranchCoverageRate = 0) := by
  obtain ⟨st, hrun, hs⟩ := Parse_some lines readErr s h
  obtain ⟨_, _, _, _, _, _, _, hl, hf, hb⟩ :=
    runLines_loopInv lines _ st loopInv_init hrun
  obtain ⟨k1, k2, k3, k4, k5, k6, k7, k8⟩ := finalize_counts st.1
  obtain ⟨r1, r2, r3⟩ := finalize_rates st.1 hl hf hb
  subst hs
  refine ⟨?_, ?_, ?_, ?_, ?_, ?_⟩
  · intro hpos; rw [k2] at hpos; rw [r1, k2, k3, if_pos hpos]; ring
  · intro h0; rw [k2] at h0; rw [r1, if_neg (by omega)]
  · intro hpos; rw [k4] at hpos; rw [r2, k4, k5, if_pos hpos]; ring
  · intro h0; rw [k4] at h0; rw [r2, if_neg (by omega)]
  · intro hpos; rw [k6] at hpos; rw [r3, k6, k7, if_pos hpos]; ring
  · intro h0; rw [k6] at h0; rw [r3, if_neg (by omega)]

/-- Witness for C1 at Scenario A of the spec. -/
theorem c1_coverage_rates_witness :
    (Parse linesA none).1 = some (finalize preSummaryA) ∧
    (((finalize preSummaryA).TotalLines > 0 →
        (finalize preSummaryA).LineCoverageRate =
          100 * ((finalize preSummaryA).CoveredLines : ℚ) /
            ((finalize preSummaryA).TotalLines : ℚ)) ∧
     ((finalize preSummaryA).TotalLines = 0 →
        (finalize preSummaryA).LineCoverageRate = 0) ∧
     ((finalize preSummaryA).TotalFunctions > 0 →
        (finalize preSummaryA).FunctionCoverageRate =
          100 * ((finalize preSummaryA).CoveredFunctions : ℚ) /
            ((finalize preSummaryA).TotalFunctions : ℚ)) ∧
     ((finalize preSummaryA).TotalFunctions = 0 →
        (finalize preSummaryA).FunctionCoverageRate = 0) ∧
     ((finalize preSummaryA).TotalBranches > 0 →
        (finalize preSummaryA).BranchCoverageRate =
          100 * ((finalize preSummaryA).CoveredBranches : ℚ) /
            ((finalize preSummaryA).TotalBranches : ℚ)) ∧
     ((finalize preSummaryA).TotalBranches = 0 →
        (finalize preSummaryA).BranchCoverageRate = 0)) := by
  have hp : (Parse linesA none).1 = some (finalize preSummaryA) := by
    rw [Parse_of_runLines linesA none (preSummaryA, none) (by decide)]
  exact ⟨hp, c1_coverage_rates linesA none (finalize preSummaryA) hp⟩

/-- Claim C2: on every successful parse the aggregates are additive over
the closed file blocks (the `Files` list), and at the record level the
counters come only from `LF`/`LH`/`BRF`/`BRH` (overwriting), `FN`
(appending a definition) and `FNDA` with a positive parsed count; `DA` and
`BRDA` records only append to the raw entry lists and change no count. -/
theorem c2_additive_aggregation :
    (∀ lines readErr s, (Parse lines readErr).1 = some s →
      s.TotalFiles = (s.Files.length : Int) ∧
      s.TotalLines = sumBy (fun f => f.LinesFound) s.Files ∧
      s.CoveredLines = sumBy (fun f => f.LinesHit) s.Files ∧
      s.TotalFunctions = sumBy (fun f => (f.Functions.length : Int)) s.Files ∧
      s.CoveredFunctions = sumBy (fun f => f.FunctionsHit) s.Files ∧
      s.TotalBranches = sumBy (fun f => f.BranchesFound) s.Files ∧
      s.CoveredBranches = sumBy (fun f => f.BranchesHit) s.Files) ∧
    (∀ sum fr v n, Atoi v = some n →
      stepE (sum, some fr) ⟨RecordLinesFound, v⟩ =
        .ok (sum, some { fr with LinesFound := n })) ∧
    (∀ sum fr v n, Atoi v = some n →
      stepE (sum, some fr) ⟨RecordLinesHit, v⟩ =
        .ok (sum, some { fr with LinesHit := n })) ∧
    (∀ sum fr v n, Atoi v = some n →
      stepE (sum, some fr) ⟨RecordBranchFound, v⟩ =
        .ok (sum, some { fr with BranchesFound := n })) ∧
    (∀ sum fr v n, Atoi v = some n →
      stepE (sum, some fr) ⟨RecordBranchHit, v⟩ =
        .ok (sum, some { fr with BranchesHit := n })) ∧
    (∀ sum fr v fd, parseFunctionName v = .ok fd →
      stepE (sum, some fr) ⟨RecordFunctionName, v⟩ =
        .ok (sum, some { fr with Functions := fr.Functions ++ [fd] })) ∧
    (∀ sum fr v, stepE (sum, some fr) ⟨RecordFunctionData, v⟩ =
      .ok (sum, some
        { fr with FunctionsHit := fr.FunctionsHit + (if fndaHit v then 1 else 0) })) ∧
    (∀ sum fr v ld, parseLineData v = .ok ld →
      stepE (sum, some fr) ⟨RecordLineData, v⟩ =
        .ok (sum, some { fr with Lines := fr.Lines ++ [ld] })) ∧
    (∀ sum fr v bd, parseBranchData v = .ok bd →
      stepE (sum, some fr) ⟨RecordBranchData, v⟩ =
        .ok (sum, some { fr with Branches := fr.Branches ++ [bd] })) := by
  refine ⟨?_, ?_, ?_, ?_, ?_, ?_, ?_, ?_, ?_⟩
  · intro lines readErr s h
    obtain ⟨st, hrun, hs⟩ := Parse_some lines readErr s h
    obtain ⟨i1, i2, i3, i4, i5, i6, i7, _, _, _⟩ :=
      runLines_loopInv lines _ st loopInv_init hrun
    obtain ⟨k1, k2, k3, k4, k5, k6, k7, k8⟩ := finalize_counts st.1
    subst hs
    rw [k1, k2, k3, k4, k5, k6, k7, k8]
    exact ⟨i1, i2, i3, i4, i5, i6, i7⟩
  · intro sum fr v n hA; rw [stepE_LF_some, hA]
  · intro sum fr v n hA; rw [stepE_LH_some, hA]
  · intro sum fr v n hA; rw [stepE_BRF_some, hA]
  · intro sum fr v n hA; rw [stepE_BRH_some, hA]
  · intro sum fr v fd hP; rw [stepE_FN_some, hP]
  · exact stepE_FNDA_update
  · intro sum fr v ld hP; rw [stepE_DA_some, hP]
  · intro sum fr v bd hP; rw [stepE_BRDA_some, hP]

/-- Witness for C2: the aggregation equalities at a concrete one-file
input, and each record-level conjunct at concrete values. -/
theorem c2_additive_aggregation_witness :
    ((Parse linesOneFile none).1 = some (finalize preOneFile) ∧
     ((finalize preOneFile).TotalFiles = ((finalize preOneFile).Files.length : Int) ∧
      (finalize preOneFile).TotalLines =
        sumBy (fun f => f.LinesFound) (finalize preOneFile).Files ∧
      (finalize preOneFile).CoveredLines =
        sumBy (fun f => f.LinesHit) (finalize preOneFile).Files ∧
      (finalize preOneFile).TotalFunctions =
        sumBy (fun f => (f.Functions.length : Int)) (finalize preOneFile).Files ∧
      (finalize preOneFile).CoveredFunctions =
        sumBy (fun f => f.FunctionsHit) (finalize preOneFile).Files ∧
      (finalize preOneFile).TotalBranches =
        sumBy (fun f => f.BranchesFound) (finalize preOneFile).Files ∧
      (finalize preOneFile).CoveredBranches =
        sumBy (fun f => f.BranchesHit) (finalize preOneFile).Files)) ∧
    (Atoi "7" = some 7 ∧
      stepE ({}, some {}) ⟨RecordLinesFound, "7"⟩ =
        .ok ({}, some { LinesFound := 7 })) ∧
    (parseFunctionName "3,main" = .ok ⟨3, "main"⟩ ∧
      stepE ({}, some {}) ⟨RecordFunctionName, "3,main"⟩ =
        .ok ({}, some { Functions := [⟨3, "main"⟩] })) ∧
    (parseLineData "1,5" = .ok ⟨1, 5⟩ ∧
      stepE ({}, some {}) ⟨RecordLineData, "1,5"⟩ =
        .ok ({}, some { Lines := [⟨1, 5⟩] })) := by
  have hp : (Parse linesOneFile none).1 = some (finalize preOneFile) := by
    rw [Parse_of_runLines linesOneFile none (preOneFile, none) (by decide)]
  exact ⟨⟨hp, c2_additive_aggregation.1 linesOneFile none (finalize preOneFile) hp⟩,
    ⟨by decide, c2_additive_aggregation.2.1 {} {} "7" 7 (by decide)⟩,
    ⟨by decide, c2_additive_aggregation.2.2.2.2.2.1 {} {} "3,main" ⟨3, "main"⟩ (by decide)⟩,
    ⟨by decide, c2_additive_aggregation.2.2.2.2.2.2.2.1 {} {} "1,5" ⟨1, 5⟩ (by decide)⟩⟩

/-- Claim C4: ending the input while a file block is open is not an error:
the parse result is the finalization of the accumulated summary, which
ignores the open block entirely; the summary component of the state changes
only at an `end_of_record` record; and `finalize` preserves every count and
the `Files` list — so all totals equal what they were when the last
`end_of_record` was processed. -/
theorem c4_unterminated_block_dropped :
    (∀ lines readErr st (fr : FileRecord),
      runLines ({}, none) lines = .ok st → st.2 = some fr →
        Parse lines readErr = (some (finalize st.1), readErr)) ∧
    (∀ st1 r st2, stepE st1 r = .ok st2 → r.rtype ≠ RecordEndOfRecord →
        st2.1 = st1.1) ∧
    (∀ s : Summary,
      (finalize s).TotalFiles = s.TotalFiles ∧
      (finalize s).TotalLines = s.TotalLines ∧
      (finalize s).CoveredLines = s.CoveredLines ∧
      (finalize s).TotalFunctions = s.TotalFunctions ∧
      (finalize s).CoveredFunctions = s.CoveredFunctions ∧
      (finalize s).TotalBranches = s.TotalBranches ∧
      (finalize s).CoveredBranches = s.CoveredBranches ∧
      (finalize s).Files = s.Files) := by
  refine ⟨?_, ?_, finalize_counts⟩
  · intro lines readErr st fr hrun hopen
    exact Parse_of_runLines lines readErr st hrun
  · intro st1 r st2 h hne
    exact stepE_summary_of_ne st1 r st2 hne h

/-- Witness for C4 at an input that ends inside an open block. -/
theorem c4_unterminated_block_dropped_witness :
    (runLines ({}, none) linesOpenEnd = .ok (({} : Summary), some openBlock) ∧
     Parse linesOpenEnd none = (some (finalize ({} : Summary)), none)) ∧
    (stepE (({} : Summary), some ({} : FileRecord)) ⟨RecordLinesFound, "3"⟩ =
        .ok ({}, some { LinesFound := 3 }) ∧
     ((({} : Summary), some ({ LinesFound := 3 } : FileRecord)) : PState).1 =
        ((({} : Summary), some ({} : FileRecord)) : PState).1) := by
  refine ⟨⟨by decide, ?_⟩,
    ⟨by decide, c4_unterminated_block_dropped.2.1
      (({} : Summary), some ({} : FileRecord)) ⟨RecordLinesFound, "3"⟩
      ({}, some { LinesFound := 3 }) (by decide) (by decide)⟩⟩
  exact c4_unterminated_block_dropped.1 linesOpenEnd none
    (({} : Summary), some openBlock) openBlock (by decide) rfl

/-- A file-scoped record arriving while the extended parser has no open
block makes the step fail with the corresponding sequencing error. -/
theorem stepE_idle_fileScoped (st : PState) (r : Record) (msg : String)
    (hidle : st.2 = none) (hmsg : withoutSrcMsg r.rtype = some msg) :
    stepE st r = .error msg := by
  obtain ⟨sum, cf⟩ := st
  simp only at hidle
  subst hidle
  obtain ⟨t, v⟩ := r
  simp only at hmsg
  unfold withoutSrcMsg at hmsg
  split_ifs at hmsg with h1 h2 h3 h4 h5 h6 h7 h8
  · cases hmsg; subst h1; exact stepE_DA_none sum v
  · cases hmsg; subst h2; exact stepE_LF_none sum v
  · cases hmsg; subst h3; exact stepE_LH_none sum v
  · cases hmsg; subst h4; exact stepE_FN_none sum v
  · cases hmsg; subst h5; exact stepE_FNDA_none sum v
  · cases hmsg; subst h6; exact stepE_BRDA_none sum v
  · cases hmsg; subst h7; exact stepE_BRF_none sum v
  · cases hmsg; subst h8; exact stepE_BRH_none sum v

/-- Claim C5 (amended): a file-scoped record observed while no block is
open aborts the parse with the message `<kind> without source file` and no
summary is returned — where a block is the span opened by a source-file
*or test-name* record and closed by `end_of_record` (the original claim,
which admitted only source-file records as openers, fails: see the
counterexample). -/
theorem c5_no_open_block_errors (pre : List String) (line : String)
    (rest : List String) (readErr : Option String) (st : PState) (r : Record)
    (msg : String)
    (hrun : runLines ({}, none) pre = .ok st) (hidle : st.2 = none)
    (hne : trimSpace line ≠ "") (htok : parseRecord (trimSpace line) = .ok r)
    (hmsg : withoutSrcMsg r.rtype = some msg) :
    Parse (pre ++ line :: rest) readErr = (none, some msg) :=
  Parse_aborts_at pre line rest readErr st r msg hrun hne htok
    (stepE_idle_fileScoped st r msg hidle hmsg)

/-- Witness for the amended C5 at Scenario B of the spec. -/
theorem c5_no_open_block_errors_witness :
    (runLines ({}, none) ([] : List String) = .ok ((({} : Summary), none) : PState) ∧
     trimSpace "DA:1,5" ≠ "" ∧
     parseRecord (trimSpace "DA:1,5") = .ok ⟨"DA", "1,5"⟩ ∧
     withoutSrcMsg "DA" = some "line data without source file") ∧
    Parse ["DA:1,5", "end_of_record"] none =
      (none, some "line data without source file") :=
  ⟨⟨by decide, by decide, by decide, by decide⟩,
   c5_no_open_block_errors [] "DA:1,5" ["end_of_record"] none ({}, none)
     ⟨"DA", "1,5"⟩ "line data without source file"
     (by decide) rfl (by decide) (by decide) (by decide)⟩

/-- Counterexample to C5 as stated: with no source-file record at all, a
`TN` record opens a block, so a following `DA` record is accepted rather
than rejected with "line data without source file", and the block is even
counted at `end_of_record`. -/
theorem c5_counterexample :
    (Parse ["TN:x", "DA:1,1", "end_of_record"] none).2 = none ∧
    (Parse ["TN:x", "DA:1,1", "end_of_record"] none).1.isSome = true ∧
    ((Parse ["TN:x", "DA:1,1", "end_of_record"] none).1.map
      (fun s => (s.TotalFiles, s.Files.map fun f => (f.SourceFile, f.Lines)))) =
      some (1, [("", [⟨1, 1⟩])]) := by
  refine ⟨?_, ?_, ?_⟩ <;> decide

/-- Claim C3, evaluated at the failing input: when the scanner stops with a
read error, `Parse` propagates the error but returns it *alongside a
non-nil Summary* (the aggregate over the lines delivered before the
failure) — with no lines delivered the zero-valued summary, and with a
complete block delivered a populated one.  The claim (and the repository's
own scanner-error test, which asserts a nil summary) requires `(nil, err)`
here. -/
theorem c3_read_error_keeps_summary :
    Parse ([] : List String) (some "simulated read error") =
      (some (finalize ({} : Summary)), some "simulated read error") ∧
    Parse linesOneFile (some "simulated read error") =
      (some (finalize preOneFile), some "simulated read error") ∧
    (Parse ([] : List String) (some "simulated read error")).1.isSome = true ∧
    (Parse linesOneFile (some "simulated read error")).2 =
      some "simulated read error" := by
  have h1 := Parse_of_runLines ([] : List String) (some "simulated read error")
    ({}, none) (by decide)
  have h2 := Parse_of_runLines linesOneFile (some "simulated read error")
    (preOneFile, none) (by decide)
  exact ⟨h1, h2, by simp [h1], by simp [h2]⟩

/-- Counterexample to C6 as stated: on `"FN:\nend_of_record"` the parser
fails with the sequencing error `function name without source file`, a
message that contains neither `invalid record format` nor
`invalid function name format` nor the raw line `FN:`. -/
theorem c6_counterexample :
    Summarize ["FN:", "end_of_record"] none =
      (none, some "function name without source file") ∧
    hasSub "function name without source file" "invalid record format" = false ∧
    hasSub "function name without source file" "invalid function name format" = false ∧
    hasSub "function name without source file" "FN:" = false := by
  refine ⟨?_, ?_, ?_, ?_⟩ <;> decide

/-- Claim C6 (amended): on the input `"FN:\nend_of_record"` `Summarize`
fails with the sequencing error `function name without source file`: the
tokenizer accepts the recognized tag with an empty value (producing a
`Record` with empty value, as claimed), but the record is then rejected by
the no-open-block check — which fires before the function-name arity check
(`parseFunctionName ""` would have failed with
`invalid function name format: `) — so neither of the two claimed messages
nor the raw line appears in the error. -/
theorem c6_empty_fn_value :
    Summarize ["FN:", "end_of_record"] none =
      (none, some "function name without source file") ∧
    parseRecord "FN:" = .ok ⟨"FN", ""⟩ ∧
    parseFunctionName "" = .error "invalid function name format: " := by
  refine ⟨?_, ?_, ?_⟩ <;> decide

/-- Claim C9: a test-name record arriving while no block is open creates a
file block: after `TN:x` a `DA:1,1` is accepted without any sequencing
error even though no `SF:` record has appeared, and `"TN:x\nend_of_record"`
yields a successful summary counting one file whose record has test name
`x` and an empty source path. -/
theorem c9_tn_creates_block :
    (Parse ["TN:x", "DA:1,1"] none).2 = none ∧
    (Parse ["TN:x", "DA:1,1"] none).1.isSome = true ∧
    (Parse ["TN:x", "end_of_record"] none).2 = none ∧
    ((Parse ["TN:x", "end_of_record"] none).1.map
      (fun s => (s.TotalFiles, s.Files.map fun f => (f.TestName, f.SourceFile)))) =
      some (1, [("x", "")]) := by
  refine ⟨?_, ?_, ?_, ?_⟩ <;> decide

/-- Claim C7: an `FNDA` record inside an open block never makes the step
fail, whatever its value; the functions-hit counter is incremented exactly
when the value splits on comma into two parts whose first part parses as an
integer greater than zero; by contrast, a malformed `DA` or `BRDA` payload
aborts the step with its payload error. -/
theorem c7_fnda_never_errors :
    (∀ sum fr v, stepE (sum, some fr) ⟨RecordFunctionData, v⟩ =
      .ok (sum, some
        { fr with FunctionsHit := fr.FunctionsHit + (if fndaHit v then 1 else 0) })) ∧
    (∀ v, fndaHit v = true ↔
      ∃ p0 p1 n, goSplit ',' v = [p0, p1] ∧ Atoi p0 = some n ∧ n > 0) ∧
    (∀ sum fr v e, parseLineData v = .error e →
      stepE (sum, some fr) ⟨RecordLineData, v⟩ = .error e) ∧
    (∀ sum fr v e, parseBranchData v = .error e →
      stepE (sum, some fr) ⟨RecordBranchData, v⟩ = .error e) :=
  ⟨stepE_FNDA_update, fndaHit_iff, stepE_DA_error, stepE_BRDA_error⟩

/-- Witness for C7: a malformed `FNDA` value is silently ignored, a
well-formed one with positive count increments the counter, and the same
malformed arity in a `DA` or `BRDA` record aborts the step. -/
theorem c7_fnda_never_errors_witness :
    stepE ({}, some ({} : FileRecord)) ⟨RecordFunctionData, "oops"⟩ =
      .ok ({}, some ({ FunctionsHit := 0 + (if fndaHit "oops" then 1 else 0) } :
        FileRecord)) ∧
    stepE ({}, some ({} : FileRecord)) ⟨RecordFunctionData, "2,main"⟩ =
      .ok ({}, some ({ FunctionsHit := 0 + (if fndaHit "2,main" then 1 else 0) } :
        FileRecord)) ∧
    fndaHit "oops" = false ∧ fndaHit "2,main" = true ∧
    (parseLineData "oops" = .error "invalid line data format: oops" ∧
     stepE ({}, some ({} : FileRecord)) ⟨RecordLineData, "oops"⟩ =
       .error "invalid line data format: oops") ∧
    (parseBranchData "oops" = .error "invalid branch data format: oops" ∧
     stepE ({}, some ({} : FileRecord)) ⟨RecordBranchData, "oops"⟩ =
       .error "invalid branch data format: oops") :=
  ⟨c7_fnda_never_errors.1 {} {} "oops",
   c7_fnda_never_errors.1 {} {} "2,main",
   by decide, by decide,
   ⟨by decide, c7_fnda_never_errors.2.2.1 {} {} "oops"
      "invalid line data format: oops" (by decide)⟩,
   ⟨by decide, c7_fnda_never_errors.2.2.2 {} {} "oops"
      "invalid branch data format: oops" (by decide)⟩⟩

/-- Claim C8: `parseBranchData` accepts the literal `-` as fourth field,
normalized to execution count 0 (`BRDA:10,2,1,-` gives count 0); wrong
arity fails with `invalid branch data format: <value>`; a non-integer
line, block, branch or execution-count field fails with a message naming
the offending field value; and such a payload error aborts the whole
parse with no summary (via `Parse_aborts_at` and
`stepE_BRDA_error`). -/
theorem c8_branch_dash_sentinel :
    (parseBranchData "10,2,1,-" = .ok ⟨10, 2, 1, 0⟩) ∧
    (∀ v p0 p1 p2 n0 n1 n2, goSplit ',' v = [p0, p1, p2, "-"] →
      Atoi p0 = some n0 → Atoi p1 = some n1 → Atoi p2 = some n2 →
      parseBranchData v = .ok ⟨n0, n1, n2, 0⟩) ∧
    (∀ v, (goSplit ',' v).length ≠ 4 →
      parseBranchData v = .error ("invalid branch data format: " ++ v)) ∧
    (∀ v p0 p1 p2 p3, goSplit ',' v = [p0, p1, p2, p3] →
      Atoi p0 = none →
      parseBranchData v = .error ("invalid branch line number: " ++ p0)) ∧
    (∀ v p0 p1 p2 p3 n0, goSplit ',' v = [p0, p1, p2, p3] →
      Atoi p0 = some n0 → Atoi p1 = none →
      parseBranchData v = .error ("invalid branch block number: " ++ p1)) ∧
    (∀ v p0 p1 p2 p3 n0 n1, goSplit ',' v = [p0, p1, p2, p3] →
      Atoi p0 = some n0 → Atoi p1 = some n1 → Atoi p2 = none →
      parseBranchData v = .error ("invalid branch number: " ++ p2)) ∧
    (∀ v p0 p1 p2 p3 n0 n1 n2, goSplit ',' v = [p0, p1, p2, p3] →
      Atoi p0 = some n0 → Atoi p1 = some n1 → Atoi p2 = some n2 →
      p3 ≠ "-" → Atoi p3 = none →
      parseBranchData v = .error ("invalid branch execution count: " ++ p3)) ∧
    (∀ pre line rest readErr st (fr : FileRecord) v e,
      runLines ({}, none) pre = .ok st → st.2 = some fr →
      trimSpace line ≠ "" → parseRecord (trimSpace line) = .ok ⟨RecordBranchData, v⟩ →
      parseBranchData v = .error e →
      Parse (pre ++ line :: rest) readErr = (none, some e)) := by
  refine ⟨by decide, ?_, ?_, ?_, ?_, ?_, ?_, ?_⟩
  · intro v p0 p1 p2 n0 n1 n2 hs h0 h1 h2
    simp [parseBranchData, hs, h0, h1, h2]
  · intro v hlen
    unfold parseBranchData
    rcases hs : goSplit ',' v with _ | ⟨p0, _ | ⟨p1, _ | ⟨p2, _ | ⟨p3, _ | ⟨q, qs⟩⟩⟩⟩⟩ <;>
      simp only [hs] <;> try rfl
    simp [hs] at hlen
  · intro v p0 p1 p2 p3 hs h0
    simp [parseBranchData, hs, h0]
  · intro v p0 p1 p2 p3 n0 hs h0 h1
    simp [parseBranchData, hs, h0, h1]
  · intro v p0 p1 p2 p3 n0 n1 hs h0 h1 h2
    simp [parseBranchData, hs, h0, h1, h2]
  · intro v p0 p1 p2 p3 n0 n1 n2 hs h0 h1 h2 hdash h3
    simp [parseBranchData, hs, h0, h1, h2, hdash, h3]
  · intro pre line rest readErr st fr v e hrun hopen hne htok hp
    obtain ⟨sum, cf⟩ := st
    simp only at hopen
    subst hopen
    exact Parse_aborts_at pre line rest readErr (sum, some fr) ⟨RecordBranchData, v⟩ e
      hrun hne htok (stepE_BRDA_error sum fr v e hp)

/-- Witness for C8: the sentinel at `10,2,1,-`, each failure mode at a
concrete malformed value, and Scenario C of the spec
(`SF:/a.go`, `BRDA:1,0,0`, `end_of_record`) aborting the whole parse. -/
theorem c8_branch_dash_sentinel_witness :
    (goSplit ',' "10,2,1,-" = ["10", "2", "1", "-"] ∧
     parseBranchData "10,2,1,-" = .ok ⟨10, 2, 1, 0⟩) ∧
    ((goSplit ',' "1,0,0").length ≠ 4 ∧
     parseBranchData "1,0,0" = .error "invalid branch data format: 1,0,0") ∧
    (goSplit ',' "x,0,0,1" = ["x", "0", "0", "1"] ∧ Atoi "x" = none ∧
     parseBranchData "x,0,0,1" = .error "invalid branch line number: x") ∧
    (goSplit ',' "1,0,0,z" = ["1", "0", "0", "z"] ∧ ("z" : String) ≠ "-" ∧
     Atoi "z" = none ∧
     parseBranchData "1,0,0,z" = .error "invalid branch execution count: z") ∧
    (runLines ({}, none) ["SF:/a.go"] =
        .ok (({} : Summary), some { SourceFile := "/a.go" }) ∧
     trimSpace "BRDA:1,0,0" ≠ "" ∧
     parseRecord (trimSpace "BRDA:1,0,0") = .ok ⟨RecordBranchData, "1,0,0"⟩ ∧
     Parse (["SF:/a.go"] ++ "BRDA:1,0,0" :: ["end_of_record"]) none =
       (none, some "invalid branch data format: 1,0,0")) :=
  ⟨⟨by decide, c8_branch_dash_sentinel.2.1 "10,2,1,-" "10" "2" "1" 10 2 1
      (by decide) (by decide) (by decide) (by decide)⟩,
   ⟨by decide, c8_branch_dash_sentinel.2.2.1 "1,0,0" (by decide)⟩,
   ⟨by decide, by decide, c8_branch_dash_sentinel.2.2.2.1 "x,0,0,1" "x" "0" "0" "1"
      (by decide) (by decide)⟩,
   ⟨by decide, by decide, by decide,
    c8_branch_dash_sentinel.2.2.2.2.2.2.1 "1,0,0,z" "1" "0" "0" "z" 1 0 0
      (by decide) (by decide) (by decide) (by decide) (by decide) (by decide)⟩,
   ⟨by decide, by decide, by decide,
    c8_branch_dash_sentinel.2.2.2.2.2.2.2 ["SF:/a.go"] "BRDA:1,0,0"
      ["end_of_record"] none (({} : Summary), some { SourceFile := "/a.go" })
      { SourceFile := "/a.go" } "1,0,0" "invalid branch data format: 1,0,0"
      (by decide) rfl (by decide) (by decide) (by decide)⟩⟩

/-- Claim C10 (amended): the two `Parse` implementations agree — equal
values on every shared `Summary` aggregate field and the same
success-versus-error outcome — on every input in which each test-name
record arrives while a file block is open and each source-file record
arrives while none is (`agreeLines`); without that restriction the claim
fails, see the counterexample. -/
theorem c10_parsers_agree (lines : List String) (readErr : Option String)
    (hcond : agreeLines false lines = true) :
    (Parse lines readErr).1.map toCounters = (ParseC lines readErr).1 ∧
    (Parse lines readErr).2.isSome = (ParseC lines readErr).2.isSome := by
  have h0 : Rel ({}, none) {} := ⟨rfl, Or.inl ⟨rfl, rfl⟩⟩
  rcases runAgree lines ({}, none) {} h0 hcond with
    ⟨st2, c2, hE, hC, hrel2⟩ | ⟨e1, e2, hE, hC⟩
  · have hP : Parse lines readErr = (some (finalize st2.1), readErr) := by
      unfold Parse
      rw [hE]
    have hPC : ParseC lines readErr = (some (finalizeC c2.summary), readErr) := by
      unfold ParseC
      rw [hC]
    rw [hP, hPC]
    refine ⟨?_, rfl⟩
    show some (toCounters (finalize st2.1)) = some (finalizeC c2.summary)
    rw [toCounters_finalize, hrel2.1]
  · have hP : Parse lines readErr = (none, some e1) := by
      unfold Parse
      rw [hE]
    have hPC : ParseC lines readErr = (none, some e2) := by
      unfold ParseC
      rw [hC]
    rw [hP, hPC]
    exact ⟨rfl, rfl⟩

/-- Witness for the amended C10 at a well-placed one-file report. -/
theorem c10_parsers_agree_witness :
    agreeLines false linesRich = true ∧
    ((Parse linesRich none).1.map toCounters = (ParseC linesRich none).1 ∧
     (Parse linesRich none).2.isSome = (ParseC linesRich none).2.isSome) :=
  ⟨by decide, c10_parsers_agree linesRich none (by decide)⟩

/-- Counterexample to C10 as stated: the two implementations disagree.  A
`TN` before any `SF` opens a block only in the extended parser (so it
counts a file the counters-only parser does not, and accepts a `DA` the
counters-only parser rejects), and an `SF` inside an open block resets the
counters only in the counters-only parser. -/
theorem c10_counterexample :
    ((Parse ["TN:y", "end_of_record"] none).1.map (fun s => s.TotalFiles)) =
      some 1 ∧
    ((ParseC ["TN:y", "end_of_record"] none).1.map (fun s => s.TotalFiles)) =
      some 0 ∧
    ((Parse ["SF:a", "LF:5", "SF:b", "end_of_record"] none).1.map
      (fun s => s.TotalLines)) = some 5 ∧
    ((ParseC ["SF:a", "LF:5", "SF:b", "end_of_record"] none).1.map
      (fun s => s.TotalLines)) = some 0 ∧
    (Parse ["TN:y", "DA:2,2", "end_of_record"] none).2 = none ∧
    (ParseC ["TN:y", "DA:2,2", "end_of_record"] none).2 =
      some "line data without source file" := by
  refine ⟨?_, ?_, ?_, ?_, ?_, ?_⟩ <;> decide

end Lcov
